import Mathlib

/-!
# BookStore-API: authentication, access gate and catalog queries

A shallow embedding of `src/backend/src/routes/authRoutes.js` and
`src/backend/src/routes/bookRoutes.js`.

Conventions of the embedding

* The database behind the Prisma client is a value of type `Db` (two lists of
  rows).  Every handler is a function from the request and the database to a
  response and the database afterwards.  A `findMany` with `skip` and `take`
  returns rows in ascending order of identifier.
* A Prisma call that throws is an `Except.error`; the `try/catch` of a handler
  turns it into status 500 with the message `Server error`.  The client throws
  on a value of the wrong type for a column, on a value the database does not
  accept for a column, on a number that is not finite, on an invalid date, on a
  `skip` or `take` that is not an integer of 64 bits, on a negative `skip`, on
  a violated uniqueness constraint, and on an update or delete of a row that
  does not exist.  A negative `take` selects rows from the end.
* A JavaScript number is `NaN`, an infinity, or a rational that is a binary64
  value; parsing and arithmetic round to binary64 (`toBinary64`).  The sign of
  zero is not represented (JSON writes both zeros as `0`), and the quotient
  under `Math.ceil` is kept exact.
* Request values are JSON scalars or `undefined`; arrays and nested objects are
  outside the embedding.
* `bcrypt`, `jsonwebtoken` and `Date` parsing are primitives supplied by `Env`,
  and so is what depends on the database installation: which values a column
  accepts, the letter case folding of `ILIKE`, and the order of identifiers.
  Values drawn by the environment during a request (the bcrypt salt, the
  identifier the database generates for a new row, the clock) are explicit
  arguments of the handler.
-/

namespace BookStore

/-! ## JavaScript numbers and values -/

/-- A JavaScript number: `NaN`, an infinity, or a finite value. -/
inductive JsNum where
  | nan
  | posInf
  | negInf
  | fin (q : ℚ)
  deriving DecidableEq

namespace JsNum

/-- The number written as the integer literal `z`. -/
def ofInt (z : Int) : JsNum := fin (z : ℚ)

/-- The infinity with the given sign (`true` is negative). -/
def inf (negative : Bool) : JsNum := if negative then negInf else posInf

end JsNum

/-! ## Rounding to binary64 -/

/-- The exponent of the leading binary digit of the positive rational `a / b`:
the integer `e` with `2 ^ e ≤ a / b < 2 ^ (e + 1)`. -/
def leadingExponent (a b : Nat) : Int :=
  let e : Int := (Nat.log2 a : Int) - (Nat.log2 b : Int)
  if (a : ℚ) / (b : ℚ) < (2 : ℚ) ^ e then e - 1 else e

/-- The integer nearest to a non-negative rational, a tie going to the even
neighbour. -/
def roundHalfEven (q : ℚ) : Int :=
  let below : Int := ⌊q⌋
  let rest : ℚ := q - (below : ℚ)
  if rest < 1 / 2 then below
  else if 1 / 2 < rest then below + 1
  else if below % 2 = 0 then below else below + 1

/-- The binary64 value nearest to a positive rational (round to nearest, ties to
even, gradual underflow), as a rational; the value `2 ^ 1024` stands for
overflow. -/
def nearestBinary64 (m : ℚ) : ℚ :=
  let e : Int := max (leadingExponent m.num.natAbs m.den) (-1022)
  let quantum : ℚ := (2 : ℚ) ^ (e - 52)
  (roundHalfEven (m / quantum) : ℚ) * quantum

/-- The JavaScript number that a real value becomes.  An integer of magnitude up
to `2 ^ 53` is a binary64 value as it stands; any other value is rounded to the
nearest binary64 value, overflow giving an infinity and underflow zero. -/
def toBinary64 (q : ℚ) : JsNum :=
  if q.den = 1 ∧ q.num.natAbs ≤ 2 ^ 53 then JsNum.fin q
  else
    let r := nearestBinary64 |q|
    if (2 : ℚ) ^ 1024 ≤ r then JsNum.inf (decide (q < 0))
    else JsNum.fin (if q < 0 then -r else r)

namespace JsNum

/-- JavaScript `a - b`. -/
def sub : JsNum → JsNum → JsNum
  | nan, _ => nan
  | _, nan => nan
  | posInf, posInf => nan
  | negInf, negInf => nan
  | posInf, _ => posInf
  | negInf, _ => negInf
  | fin _, posInf => negInf
  | fin _, negInf => posInf
  | fin a, fin b => toBinary64 (a - b)

/-- JavaScript `a * b`. -/
def mul : JsNum → JsNum → JsNum
  | nan, _ => nan
  | _, nan => nan
  | fin a, fin b => toBinary64 (a * b)
  | fin a, posInf => if a = 0 then nan else inf (decide (a < 0))
  | fin a, negInf => if a = 0 then nan else inf (decide (0 < a))
  | posInf, fin b => if b = 0 then nan else inf (decide (b < 0))
  | negInf, fin b => if b = 0 then nan else inf (decide (0 < b))
  | posInf, posInf => posInf
  | negInf, negInf => posInf
  | posInf, negInf => negInf
  | negInf, posInf => negInf

/-- JavaScript `a / b` (a zero divisor is taken as `+0`).  The quotient of two
finite numbers is kept exact: it is only ever passed to `ceil`, and for a
dividend below `2 ^ 53` the ceiling of the rounded quotient is the ceiling of
the exact one. -/
def div : JsNum → JsNum → JsNum
  | nan, _ => nan
  | _, nan => nan
  | fin a, fin b =>
      if b = 0 then (if a = 0 then nan else inf (decide (a < 0))) else fin (a / b)
  | fin _, posInf => fin 0
  | fin _, negInf => fin 0
  | posInf, fin b => inf (decide (b < 0))
  | negInf, fin b => inf (decide (0 ≤ b))
  | posInf, posInf => nan
  | posInf, negInf => nan
  | negInf, posInf => nan
  | negInf, negInf => nan

/-- JavaScript `Math.ceil`. -/
def ceil : JsNum → JsNum
  | fin q => fin ((⌈q⌉ : Int) : ℚ)
  | x => x

end JsNum

/-- A value found in a parsed JSON body, or `undefined` for an absent field.  A
number is what `JSON.parse` read, a binary64 value. -/
inductive JsVal where
  | undefined
  | null
  | bool (b : Bool)
  | num (x : JsNum)
  | str (s : String)
  deriving DecidableEq

/-- JavaScript truthiness (`ToBoolean`). -/
def JsVal.truthy : JsVal → Bool
  | .undefined => false
  | .null => false
  | .bool b => b
  | .num (.fin q) => decide (q ≠ 0)
  | .num .nan => false
  | .num _ => true
  | .str s => decide (s ≠ "")

/-! ## `parseInt` and `parseFloat` -/

/-- White space and line terminators skipped by `parseInt` and `parseFloat`. -/
def isJsSpace (c : Char) : Bool :=
  let n := c.toNat
  n = 0x09 || n = 0x0A || n = 0x0B || n = 0x0C || n = 0x0D || n = 0x20 || n = 0xA0 ||
  n = 0x1680 || (0x2000 ≤ n && n ≤ 0x200A) || n = 0x2028 || n = 0x2029 || n = 0x202F ||
  n = 0x205F || n = 0x3000 || n = 0xFEFF

/-- The value of a character as a digit in the given radix, if it is one. -/
def digitValue (radix : Nat) (c : Char) : Option Nat :=
  let n := c.toNat
  let v : Option Nat :=
    if 48 ≤ n ∧ n ≤ 57 then some (n - 48)
    else if 97 ≤ n ∧ n ≤ 122 then some (n - 97 + 10)
    else if 65 ≤ n ∧ n ≤ 90 then some (n - 65 + 10)
    else none
  match v with
  | some d => if d < radix then some d else none
  | none => none

/-- Reads the longest run of digits at the front: the value read so far, the
number of digits read, and the rest of the input. -/
def readDigits (radix : Nat) : List Char → Nat → Nat → Nat × Nat × List Char
  | [], acc, count => (acc, count, [])
  | c :: cs, acc, count =>
      match digitValue radix c with
      | some d => readDigits radix cs (acc * radix + d) (count + 1)
      | none => (acc, count, c :: cs)

/-- Strips an optional sign; the flag says whether it was a minus. -/
def readSign : List Char → Bool × List Char
  | '-' :: cs => (true, cs)
  | '+' :: cs => (false, cs)
  | cs => (false, cs)

/-- Strips a leading `0x` or `0X`, reporting the radix to use. -/
def readRadix : List Char → Nat × List Char
  | '0' :: 'x' :: cs => (16, cs)
  | '0' :: 'X' :: cs => (16, cs)
  | cs => (10, cs)

/-- JavaScript `parseInt(s)` with no radix argument: the integer the digits
denote, rounded to binary64. -/
def parseIntStr (s : String) : JsNum :=
  let (negative, rest) := readSign (s.toList.dropWhile isJsSpace)
  let (radix, digits) := readRadix rest
  let (value, count, _) := readDigits radix digits 0 0
  if count = 0 then JsNum.nan
  else toBinary64 ((if negative then -(value : Int) else (value : Int) : Int) : ℚ)

/-- Reads an exponent part `e[+-]ddd` if one is wholly there. -/
def readExponent : List Char → Int
  | c :: cs =>
      if c = 'e' ∨ c = 'E' then
        let (negative, rest) := readSign cs
        let (value, count, _) := readDigits 10 rest 0 0
        if count = 0 then 0 else (if negative then -(value : Int) else (value : Int))
      else 0
  | [] => 0

/-- JavaScript `parseFloat(s)`: the value of the longest decimal literal at the
front, rounded to binary64. -/
def parseFloatStr (s : String) : JsNum :=
  let (negative, rest) := readSign (s.toList.dropWhile isJsSpace)
  if "Infinity".toList <+: rest then JsNum.inf negative
  else
    let (whole, wholeCount, afterWhole) := readDigits 10 rest 0 0
    let (frac, fracCount, afterFrac) :=
      match afterWhole with
      | '.' :: cs => readDigits 10 cs 0 0
      | cs => (0, 0, cs)
    if wholeCount = 0 ∧ fracCount = 0 then JsNum.nan
    else
      let mantissa : ℚ := (whole : ℚ) + (frac : ℚ) / (10 : ℚ) ^ fracCount
      let magnitude : ℚ := mantissa * (10 : ℚ) ^ readExponent afterFrac
      toBinary64 (if negative then -magnitude else magnitude)

/-- JavaScript `parseFloat(v)`: the argument is converted to a string first; a
number prints and reads back as itself. -/
def parseFloat : JsVal → JsNum
  | .str s => parseFloatStr s
  | .num (.fin q) => toBinary64 q
  | .num x => x
  | _ => JsNum.nan

/-! ## Persisted rows and the database -/

/-- Modelled from the spec: the Prisma schema (`prisma/schema.prisma`) is not
among the sources; a user row has the fields of section 3 of the specification
(identifier, email, password digest). -/
structure User where
  id : String
  email : String
  password : String
  deriving DecidableEq

/-- Modelled from the spec: the Prisma schema is not among the sources; a book
row has the fields of section 3 of the specification.  Price and rating are
finite numbers, the published date is a valid instant (milliseconds since the
epoch), and the owning-user reference is optional. -/
structure Book where
  id : String
  title : String
  author : String
  category : String
  price : ℚ
  rating : ℚ
  publishedDate : Int
  userId : Option String
  deriving DecidableEq

/-- The database behind the Prisma client. -/
structure Db where
  users : List User
  books : List Book
  deriving DecidableEq

/-- Why a Prisma call threw. -/
inductive Fault where
  | validation
  | uniqueConstraint
  | recordNotFound
  deriving DecidableEq

/-! ## Responses -/

/-- The `pagination` object of a list response. -/
structure Pagination where
  total : Nat
  page : JsNum
  limit : JsNum
  pages : JsNum
  deriving DecidableEq

/-- The body handed to `res.json` (or nothing, for `res.end()`). -/
inductive Body where
  | message (text : String)
  | credentials (id : String) (email : String) (token : String)
  | book (b : Book)
  | listing (data : List Book) (pagination : Pagination)
  | empty
  deriving DecidableEq

/-- A response: status code and body. -/
structure Response where
  status : Nat
  body : Body
  deriving DecidableEq

/-- The response of every `catch` block. -/
def serverError : Response := ⟨500, .message "Server error"⟩

/-! ## Primitives of the environment -/

/-- The library primitives the routes call and the properties of the database
installation.  `hash p salt` is `bcrypt.hash`, `compare p digest` is
`bcrypt.compare`, `sign id now` is
`jwt.sign({ id }, JWT_SECRET, { expiresIn: 24h })` issued at time `now`,
`verify token now` is the Token Service check at time `now`, and `parseDate` is
`new Date(v)` (`none` for an invalid date).

Of the database: `acceptsText`, `acceptsFloat` and `acceptsDate` say whether the
client and the database take a text, a finite number or an instant as the value
of a column or of a filter (PostgreSQL, for one, refuses a text with the
character U+0000); `lower` is the letter case folding that `ILIKE` applies to
each character; `idLe a b` says that identifier `a` does not come after
identifier `b` in the order of the database. -/
structure Env where
  hash : String → String → String
  compare : String → String → Bool
  sign : String → Nat → String
  verify : String → Nat → Option String
  parseDate : JsVal → Option Int
  unauthorizedMessage : String
  acceptsText : String → Bool
  acceptsFloat : ℚ → Bool
  acceptsDate : Int → Bool
  lower : Char → Char
  idLe : String → String → Bool

/-- `bcrypt.hash(data, salt)`: throws unless the data is a string. -/
def bcryptHash (env : Env) (data : JsVal) (salt : String) : Except Fault String :=
  match data with
  | .str p => .ok (env.hash p salt)
  | _ => .error .validation

/-- `bcrypt.compare(data, digest)`: throws unless the data is a string. -/
def bcryptCompare (env : Env) (data : JsVal) (digest : String) : Except Fault Bool :=
  match data with
  | .str p => .ok (env.compare p digest)
  | _ => .error .validation

/-! ## The Prisma client: users -/

/-- `prisma.user.findUnique({ where: { email } })`. -/
def userFindUnique (db : Db) (email : JsVal) : Except Fault (Option User) :=
  match email with
  | .str e => .ok (db.users.find? (fun u => decide (u.email = e)))
  | _ => .error .validation

/-- `prisma.user.create({ data: { email, password } })`; `newId` is the
identifier the database generates for the row. -/
def userCreate (db : Db) (newId : String) (email : JsVal) (password : String) :
    Except Fault (User × Db) :=
  match email with
  | .str e =>
      if db.users.any (fun u => decide (u.email = e) || decide (u.id = newId)) then
        .error .uniqueConstraint
      else
        let user : User := ⟨newId, e, password⟩
        .ok (user, ⟨db.users ++ [user], db.books⟩)
  | _ => .error .validation

/-! ## `routes/authRoutes.js` -/

/-- The body of an auth request after `const { email, password } = req.body`. -/
structure AuthBody where
  email : JsVal
  password : JsVal

/-- The handler `router.post('/signup')`. -/
def signup (env : Env) (salt newId : String) (now : Nat) (body : AuthBody) (db : Db) :
    Response × Db :=
  if !body.email.truthy || !body.password.truthy then
    (⟨400, .message "Email and password are required"⟩, db)
  else
    match userFindUnique db body.email with
    | .error _ => (serverError, db)
    | .ok (some _) => (⟨409, .message "Email already in use"⟩, db)
    | .ok none =>
        match bcryptHash env body.password salt with
        | .error _ => (serverError, db)
        | .ok hashedPassword =>
            match userCreate db newId body.email hashedPassword with
            | .error _ => (serverError, db)
            | .ok (user, db') =>
                (⟨201, .credentials user.id user.email (env.sign user.id now)⟩, db')

/-- The handler `router.post('/login')`. -/
def login (env : Env) (now : Nat) (body : AuthBody) (db : Db) : Response × Db :=
  if !body.email.truthy || !body.password.truthy then
    (⟨400, .message "Email and password are required"⟩, db)
  else
    match userFindUnique db body.email with
    | .error _ => (serverError, db)
    | .ok none => (⟨401, .message "Invalid credentials"⟩, db)
    | .ok (some user) =>
        match bcryptCompare env body.password user.password with
        | .error _ => (serverError, db)
        | .ok false => (⟨401, .message "Invalid credentials"⟩, db)
        | .ok true =>
            (⟨200, .credentials user.id user.email (env.sign user.id now)⟩, db)

/-! ## The Prisma client: books -/

/-- The `where` object of a list query: `author` and `title` are
`contains` filters with `mode: 'insensitive'`, `category` is an equality
filter, `rating` is a `gte` filter. -/
structure Where where
  author : Option String
  category : Option String
  rating : Option JsNum
  title : Option String

/-- One element of a `LIKE` pattern. -/
inductive LikeToken where
  | anyRun
  | anyOne
  | exactly (c : Char)

/-- Reads a `LIKE` pattern: `%` stands for any run of characters, `_` for any
one character, and a backslash makes the character after it stand for itself (a
backslash that ends the pattern stands for itself).  The flag says that the
character before was such a backslash. -/
def likeTokens : Bool → List Char → List LikeToken
  | escaped, [] => if escaped then [.exactly '\\'] else []
  | true, c :: rest => .exactly c :: likeTokens false rest
  | false, c :: rest =>
      if c = '\\' then likeTokens true rest
      else if c = '%' then .anyRun :: likeTokens false rest
      else if c = '_' then .anyOne :: likeTokens false rest
      else .exactly c :: likeTokens false rest

/-- Whether a text matches a pattern that has been read. -/
def matchTokens : List LikeToken → List Char → Bool
  | [], text => text.isEmpty
  | .anyRun :: tokens, text => text.tails.any (matchTokens tokens)
  | .anyOne :: _, [] => false
  | .anyOne :: tokens, _ :: rest => matchTokens tokens rest
  | .exactly _ :: _, [] => false
  | .exactly c :: tokens, e :: rest => decide (c = e) && matchTokens tokens rest

/-- The SQL `LIKE` match of a text against a pattern. -/
def likeMatch (pattern text : List Char) : Bool :=
  matchTokens (likeTokens false pattern) text

/-- The `contains` filter with `mode: 'insensitive'`.  The client sends the
needle between two `%` as the pattern of an `ILIKE`, without escaping it, and
`ILIKE` folds the letter case of pattern and value before matching. -/
def containsInsensitive (env : Env) (value needle : String) : Bool :=
  likeMatch ('%' :: needle.toList.map env.lower ++ ['%']) (value.toList.map env.lower)

/-- The `gte` filter on a numeric column. -/
def gteFilter (value : ℚ) : JsNum → Bool
  | .fin q => decide (q ≤ value)
  | _ => false

/-- Whether a row satisfies every condition of the `where` object. -/
def Where.holds (env : Env) (w : Where) (b : Book) : Bool :=
  (match w.author with
    | some a => containsInsensitive env b.author a
    | none => true) &&
  (match w.category with
    | some c => decide (b.category = c)
    | none => true) &&
  (match w.rating with
    | some r => gteFilter b.rating r
    | none => true) &&
  (match w.title with
    | some t => containsInsensitive env b.title t
    | none => true)

/-- Whether the client and the database take a text as the value of a filter. -/
def textFilterOk (env : Env) : Option String → Bool
  | some s => env.acceptsText s
  | none => true

/-- Whether the client and the database take a number as the bound of a filter:
it must be finite and acceptable. -/
def floatFilterOk (env : Env) : Option JsNum → Bool
  | some (.fin q) => env.acceptsFloat q
  | some _ => false
  | none => true

/-- Whether a query with this `where` object runs: otherwise it throws. -/
def Where.valid (env : Env) (w : Where) : Bool :=
  textFilterOk env w.author && textFilterOk env w.category &&
    floatFilterOk env w.rating && textFilterOk env w.title

/-- The payload of `create` and `update`: a field is `none` when the key is not
in the object. -/
structure BookData where
  title : Option JsVal
  author : Option JsVal
  category : Option JsVal
  price : Option JsNum
  rating : Option JsNum
  publishedDate : Option (Option Int)

/-- A string column takes a string that the database accepts. -/
def stringColumn (env : Env) : JsVal → Except Fault String
  | .str s => if env.acceptsText s then .ok s else .error .validation
  | _ => .error .validation

/-- A float column takes a finite number that the database accepts. -/
def floatColumn (env : Env) : JsNum → Except Fault ℚ
  | .fin q => if env.acceptsFloat q then .ok q else .error .validation
  | _ => .error .validation

/-- A date column takes a valid date that the database accepts. -/
def dateColumn (env : Env) : Option Int → Except Fault Int
  | some t => if env.acceptsDate t then .ok t else .error .validation
  | none => .error .validation

/-- The value of a column after a write: the old value when the key is absent
from the payload, the checked new value otherwise. -/
def writeColumn {α β : Type} (check : α → Except Fault β) (old : β) :
    Option α → Except Fault β
  | none => .ok old
  | some v => check v

/-- The row obtained from `old` by writing the payload over it. -/
def applyData (env : Env) (old : Book) (d : BookData) : Except Fault Book :=
  match writeColumn (stringColumn env) old.title d.title,
        writeColumn (stringColumn env) old.author d.author,
        writeColumn (stringColumn env) old.category d.category,
        writeColumn (floatColumn env) old.price d.price,
        writeColumn (floatColumn env) old.rating d.rating,
        writeColumn (dateColumn env) old.publishedDate d.publishedDate with
  | .ok title, .ok author, .ok category, .ok price, .ok rating, .ok publishedDate =>
      .ok ⟨old.id, title, author, category, price, rating, publishedDate, old.userId⟩
  | _, _, _, _, _, _ => .error .validation

/-- `prisma.book.create({ data })`: every column except the owner reference is
required; `newId` is the identifier the database generates for the row.  The
payload built by the create route has no owner key, so the reference is null. -/
def bookCreate (env : Env) (db : Db) (newId : String) (d : BookData) :
    Except Fault (Book × Db) :=
  match d.title, d.author, d.category, d.price, d.rating, d.publishedDate with
  | some t, some a, some c, some p, some r, some day =>
      match stringColumn env t, stringColumn env a, stringColumn env c, floatColumn env p,
            floatColumn env r, dateColumn env day with
      | .ok title, .ok author, .ok category, .ok price, .ok rating, .ok publishedDate =>
          if db.books.any (fun b => decide (b.id = newId)) then .error .uniqueConstraint
          else
            let book : Book :=
              ⟨newId, title, author, category, price, rating, publishedDate, none⟩
            .ok (book, ⟨db.users, db.books ++ [book]⟩)
      | _, _, _, _, _, _ => .error .validation
  | _, _, _, _, _, _ => .error .validation

/-- `prisma.book.findUnique({ where: { id } })`. -/
def bookFindUnique (db : Db) (id : String) : Except Fault (Option Book) :=
  .ok (db.books.find? (fun b => decide (b.id = id)))

/-- `prisma.book.update({ where: { id }, data })`. -/
def bookUpdate (env : Env) (db : Db) (id : String) (d : BookData) :
    Except Fault (Book × Db) :=
  match db.books.find? (fun b => decide (b.id = id)) with
  | none => .error .recordNotFound
  | some old =>
      match applyData env old d with
      | .ok book =>
          .ok (book, ⟨db.users, db.books.map (fun b => if b.id = id then book else b)⟩)
      | .error e => .error e

/-- `prisma.book.delete({ where: { id } })`. -/
def bookDelete (db : Db) (id : String) : Except Fault Db :=
  match db.books.find? (fun b => decide (b.id = id)) with
  | none => .error .recordNotFound
  | some _ => .ok ⟨db.users, db.books.filter (fun b => !decide (b.id = id))⟩

/-- `prisma.book.count({ where })`. -/
def bookCount (env : Env) (db : Db) (w : Where) : Except Fault Nat :=
  if w.valid env then .ok (db.books.filter (w.holds env)).length else .error .validation

/-- Rows in ascending order of identifier, the order in which a `findMany` with
`skip` and `take` reads them. -/
def orderById (env : Env) (rows : List Book) : List Book :=
  rows.insertionSort (fun a b => env.idLe a.id b.id = true)

/-- The rows selected by `skip` and `take` from the ordered rows: a
non-negative `take` counts from the front, a negative one from the back. -/
def window (rows : List Book) (skip take : Int) : List Book :=
  if 0 ≤ take then (rows.drop skip.toNat).take take.toNat
  else ((rows.reverse.drop skip.toNat).take (-take).toNat).reverse

/-- Whether a number is an integer of 64 bits. -/
def fitsInt64 (q : ℚ) : Bool :=
  q.isInt && decide (-(2 : ℚ) ^ 63 ≤ q) && decide (q < (2 : ℚ) ^ 63)

/-- `prisma.book.findMany({ where, skip, take })`: `skip` and `take` must be
integers of 64 bits and `skip` must not be negative; the matching rows are read
in ascending order of identifier. -/
def bookFindMany (env : Env) (db : Db) (w : Where) (skip take : JsNum) :
    Except Fault (List Book) :=
  if w.valid env then
    match skip, take with
    | .fin s, .fin t =>
        if fitsInt64 s ∧ fitsInt64 t ∧ 0 ≤ s then
          .ok (window (orderById env (db.books.filter (w.holds env))) s.num t.num)
        else .error .validation
    | _, _ => .error .validation
  else .error .validation

/-! ## `routes/bookRoutes.js`: the handlers -/

/-- The body of a book request after
`const { title, author, category, price, rating, publishedDate } = req.body`. -/
structure BookBody where
  title : JsVal
  author : JsVal
  category : JsVal
  price : JsVal
  rating : JsVal
  publishedDate : JsVal

/-- The query of a list request: each parameter is absent or a string. -/
structure ListQuery where
  author : Option String
  category : Option String
  rating : Option String
  title : Option String
  page : Option String
  limit : Option String

/-- The handler `router.post('/')`. -/
def createBook (env : Env) (newId : String) (body : BookBody) (db : Db) : Response × Db :=
  if !body.title.truthy || !body.author.truthy || !body.category.truthy ||
      decide (body.price = .undefined) || decide (body.rating = .undefined) ||
      !body.publishedDate.truthy then
    (⟨400, .message "All fields are required"⟩, db)
  else
    match bookCreate env db newId
        ⟨some body.title, some body.author, some body.category,
          some (parseFloat body.price), some (parseFloat body.rating),
          some (env.parseDate body.publishedDate)⟩ with
    | .ok (book, db') => (⟨201, .book book⟩, db')
    | .error _ => (serverError, db)

/-- The guard `if (x)` on a query parameter: the parameter when it is a
non-empty string. -/
def supplied : Option String → Option String
  | some s => if s ≠ "" then some s else none
  | none => none

/-- The `where` object the list handler builds from the query. -/
def buildWhere (q : ListQuery) : Where :=
  ⟨supplied q.author, supplied q.category, (supplied q.rating).map parseFloatStr,
    supplied q.title⟩

/-- The handler `router.get('/')`.  The defaults `page = 1` and `limit = 10`
reach `parseInt` as numbers, which it reads through their decimal digits. -/
def listBooks (env : Env) (q : ListQuery) (db : Db) : Response × Db :=
  let page := q.page.getD "1"
  let limit := q.limit.getD "10"
  let skip := ((parseIntStr page).sub (JsNum.ofInt 1)).mul (parseIntStr limit)
  let w := buildWhere q
  match bookCount env db w with
  | .error _ => (serverError, db)
  | .ok total =>
      match bookFindMany env db w skip (parseIntStr limit) with
      | .error _ => (serverError, db)
      | .ok books =>
          (⟨200, .listing books
              ⟨total, parseIntStr page, parseIntStr limit,
                ((JsNum.ofInt total).div (parseIntStr limit)).ceil⟩⟩, db)

/-- The handler `router.get('/:id')`. -/
def getBook (id : String) (db : Db) : Response × Db :=
  match bookFindUnique db id with
  | .error _ => (serverError, db)
  | .ok none => (⟨404, .message "Book not found"⟩, db)
  | .ok (some book) => (⟨200, .book book⟩, db)

/-- The spread `...(v && { key: f(v) })`: the key is in the payload exactly when
`v` is truthy. -/
def whenTruthy {α : Type} (v : JsVal) (f : JsVal → α) : Option α :=
  if v.truthy then some (f v) else none

/-- The spread `...(v !== undefined && { key: f(v) })`. -/
def whenDefined {α : Type} (v : JsVal) (f : JsVal → α) : Option α :=
  if v = .undefined then none else some (f v)

/-- The `data` object the update handler builds from the body. -/
def updateData (env : Env) (body : BookBody) : BookData :=
  ⟨whenTruthy body.title id, whenTruthy body.author id, whenTruthy body.category id,
    whenDefined body.price parseFloat, whenDefined body.rating parseFloat,
    whenTruthy body.publishedDate env.parseDate⟩

/-- The handler `router.put('/:id')`. -/
def updateBook (env : Env) (id : String) (body : BookBody) (db : Db) : Response × Db :=
  match bookFindUnique db id with
  | .error _ => (serverError, db)
  | .ok none => (⟨404, .message "Book not found"⟩, db)
  | .ok (some _) =>
      match bookUpdate env db id (updateData env body) with
      | .ok (updatedBook, db') => (⟨200, .book updatedBook⟩, db')
      | .error _ => (serverError, db)

/-- The handler `router.delete('/:id')`. -/
def deleteBook (id : String) (db : Db) : Response × Db :=
  match bookFindUnique db id with
  | .error _ => (serverError, db)
  | .ok none => (⟨404, .message "Book not found"⟩, db)
  | .ok (some _) =>
      match bookDelete db id with
      | .ok db' => (⟨204, .empty⟩, db')
      | .error _ => (serverError, db)

/-! ## The access gate and the router -/

/-- Modelled from the spec: `middleware/auth.js` is not among the sources.
Section 6 of the specification: the token travels as
`Authorization: Bearer <token>`; a request without such a header carries no
token. -/
def bearerToken : Option String → Option String
  | some header =>
      if "Bearer ".toList <+: header.toList then some (String.mk (header.toList.drop 7))
      else none
  | none => none

/-- Modelled from the spec: `middleware/auth.js` is not among the sources.
Section 4.1 of the specification: `verify(token)` is the user identifier or
`Invalid` (here `none`); a missing token is `Invalid`, and so is whatever the
signed-token primitive rejects (malformed, badly signed, expired). -/
def verifyToken (env : Env) (now : Nat) : Option String → Option String
  | some token => env.verify token now
  | none => none

/-- Modelled from the spec: `middleware/auth.js` is not among the sources.
Section 4.3 of the specification: the gate extracts the bearer token and
verifies it; on `Invalid` it answers 401 itself and the request goes no
further, otherwise it passes the resolved user identifier on. -/
def auth (env : Env) (now : Nat) (authorization : Option String) : Except Response String :=
  match verifyToken env now (bearerToken authorization) with
  | some userId => .ok userId
  | none => .error ⟨401, .message env.unauthorizedMessage⟩

/-- The five catalog routes. -/
inductive Operation where
  | create
  | list
  | get
  | update
  | delete
  deriving DecidableEq

/-- A request matched by one of the routes of `bookRoutes.js`. -/
inductive CatalogRequest where
  | create (body : BookBody)
  | list (query : ListQuery)
  | get (id : String)
  | update (id : String) (body : BookBody)
  | delete (id : String)

/-- The route a request is matched by. -/
def CatalogRequest.operation : CatalogRequest → Operation
  | .create _ => .create
  | .list _ => .list
  | .get _ => .get
  | .update _ _ => .update
  | .delete _ => .delete

/-- What a request to the book router leaves behind: the response, the
database, and the route handler that ran (if one did). -/
structure Outcome where
  response : Response
  db : Db
  handler : Option Operation

/-- The handler of each route. -/
def dispatch (env : Env) (newId : String) (req : CatalogRequest) (db : Db) : Response × Db :=
  match req with
  | .create body => createBook env newId body db
  | .list query => listBooks env query db
  | .get id => getBook id db
  | .update id body => updateBook env id body db
  | .delete id => deleteBook id db

/-- The router of `bookRoutes.js`: `router.use(auth)` runs first, then the
matching route handler. -/
def bookRoutes (env : Env) (now : Nat) (newId : String) (authorization : Option String)
    (req : CatalogRequest) (db : Db) : Outcome :=
  match auth env now authorization with
  | .error response => ⟨response, db, none⟩
  | .ok _ =>
      let result := dispatch env newId req db
      ⟨result.1, result.2, some req.operation⟩


/-! ## A concrete environment and sample data -/

/-- A concrete environment for evaluating the handlers.  The digest is the
salt, a `$`, and the password, and `compare` checks the part after the first
`$`; a token is the identifier followed by the issue time, and the one token
accepted is `good`; the one date read is `1965-08-01`.  The database accepts a
text without the character U+0000, a number of magnitude below `10 ^ 300` and
every instant, folds ASCII letters, and orders identifiers as strings. -/
def sampleEnv : Env where
  hash := fun p salt => salt ++ "$" ++ p
  compare := fun p digest => decide (digest.toList.dropWhile (fun c => c ≠ '$') = '$' :: p.toList)
  sign := fun id now => id ++ "." ++ toString now
  verify := fun token _ => if token = "good" then some "u1" else none
  parseDate := fun v =>
    match v with
    | .str s => if s = "1965-08-01" then some (-139449600000) else none
    | _ => none
  unauthorizedMessage := "Unauthorized"
  acceptsText := fun s => !s.toList.contains (Char.ofNat 0)
  acceptsFloat := fun q => decide (|q| < 10 ^ 300)
  acceptsDate := fun _ => true
  lower := Char.toLower
  idLe := fun a b => decide (a ≤ b)

/-- The empty database. -/
def emptyDb : Db := ⟨[], []⟩

/-- The request body of the example scenario of the specification. -/
def duneBody : BookBody :=
  ⟨.str "Dune", .str "Frank Herbert", .str "Fiction", .num (.fin 350), .str "4.9",
    .str "1965-08-01"⟩

/-- The row the example scenario persists; its rating is the binary64 value
nearest to 4.9. -/
def duneRow : Book :=
  ⟨"b1", "Dune", "Frank Herbert", "Fiction", 350, 2758454771764429 / 562949953421312,
    -139449600000, none⟩

/-- A second row. -/
def cleanCodeRow : Book :=
  ⟨"b2", "Clean Code", "Robert C. Martin", "Programming", 599, 9 / 2, 1217548800000, none⟩

/-- A database with one user and two books. -/
def sampleDb : Db := ⟨[⟨"u1", "bob@example.com", "salt$bob"⟩], [duneRow, cleanCodeRow]⟩

/-- A body with no field. -/
def emptyBody : BookBody :=
  ⟨.undefined, .undefined, .undefined, .undefined, .undefined, .undefined⟩

/-! ## Auxiliary facts -/

@[simp] theorem truthy_str (s : String) : (JsVal.str s).truthy = decide (s ≠ "") := rfl

theorem find_email_none {users : List User} {email : String}
    (h : ∀ u ∈ users, u.email ≠ email) :
    users.find? (fun u => decide (u.email = email)) = none := by
  rw [List.find?_eq_none]
  intro u hu
  simpa using h u hu

theorem find_email_some {users : List User} {u : User} (hu : u ∈ users)
    (hnodup : (users.map User.email).Nodup) :
    users.find? (fun v => decide (v.email = u.email)) = some u := by
  induction users with
  | nil => cases hu
  | cons v rest ih =>
      rw [List.map_cons, List.nodup_cons] at hnodup
      by_cases hv : v.email = u.email
      · have : v = u := by
          rcases List.mem_cons.mp hu with h | h
          · exact h.symm
          · exact absurd (hv ▸ List.mem_map_of_mem User.email h) hnodup.1
        subst this
        simp
      · have hmem : u ∈ rest := by
          rcases List.mem_cons.mp hu with h | h
          · exact absurd (h ▸ rfl) hv
          · exact h
        simp [List.find?_cons, hv, ih hmem hnodup.2]

/-! ## Signup and login -/

/-- C1 (as amended).  A signup with a non-empty email that no user has and a
non-empty password answers 201 and appends exactly one user row holding the
digest of the password (the identifier generated by the database being
unused).  In the resulting state every further signup with the same email
leaves the database unchanged; it answers 409 when its password is truthy and
400 when the password is empty or missing. -/
theorem signup_once_then_conflict (env : Env) (salt newId : String) (now : Nat) (db : Db)
    (email password : String) (hEmail : email ≠ "") (hPassword : password ≠ "")
    (hFree : ∀ u ∈ db.users, u.email ≠ email) (hId : ∀ u ∈ db.users, u.id ≠ newId) :
    signup env salt newId now ⟨.str email, .str password⟩ db =
        (⟨201, .credentials newId email (env.sign newId now)⟩,
          ⟨db.users ++ [⟨newId, email, env.hash password salt⟩], db.books⟩) ∧
      ∀ (salt2 newId2 : String) (now2 : Nat) (password2 : JsVal),
        signup env salt2 newId2 now2 ⟨.str email, password2⟩
            (signup env salt newId now ⟨.str email, .str password⟩ db).2 =
          (⟨if password2.truthy then 409 else 400,
              .message (if password2.truthy then "Email already in use"
                else "Email and password are required")⟩,
            (signup env salt newId now ⟨.str email, .str password⟩ db).2) := by
  have hfind := find_email_none hFree
  have hany : db.users.any (fun u => decide (u.email = email) || decide (u.id = newId))
      = false := by
    rw [List.any_eq_false]
    intro u hu
    simp [hFree u hu, hId u hu]
  have hfirst : signup env salt newId now ⟨.str email, .str password⟩ db =
      (⟨201, .credentials newId email (env.sign newId now)⟩,
        ⟨db.users ++ [⟨newId, email, env.hash password salt⟩], db.books⟩) := by
    simp [signup, userFindUnique, bcryptHash, userCreate, hEmail, hPassword, hfind, hany]
  refine ⟨hfirst, ?_⟩
  intro salt2 newId2 now2 password2
  rw [hfirst]
  have hfound : ∃ u, (db.users ++ [(⟨newId, email, env.hash password salt⟩ : User)]).find?
      (fun u => decide (u.email = email)) = some u := by
    rw [List.find?_append, hfind]
    exact ⟨⟨newId, email, env.hash password salt⟩, by simp⟩
  obtain ⟨u, hu⟩ := hfound
  by_cases hp : password2.truthy = true
  · simp [signup, userFindUnique, hEmail, hp, hu]
  · simp [signup, hp]

/-- C1, the claim as stated fails: after a successful signup, a further signup
with the same email and the empty password answers 400, not 409. -/
theorem signup_empty_password_not_conflict :
    (signup sampleEnv "salt" "u1" 0 ⟨.str "ann@example.com", .str "secret"⟩ emptyDb).1.status
        = 201 ∧
      (signup sampleEnv "salt" "u2" 1 ⟨.str "ann@example.com", .str ""⟩
        (signup sampleEnv "salt" "u1" 0 ⟨.str "ann@example.com", .str "secret"⟩ emptyDb).2).1
        = ⟨400, .message "Email and password are required"⟩ := by
  decide

/-- C1, an instance: the first signup into the empty database succeeds and a
second one with another password is refused with 409. -/
theorem signup_once_then_conflict_witness :
    ("ann@example.com" ≠ "" ∧ "secret" ≠ "" ∧
      (∀ u ∈ emptyDb.users, u.email ≠ "ann@example.com") ∧
      (∀ u ∈ emptyDb.users, u.id ≠ "u1")) ∧
    signup sampleEnv "salt" "u1" 0 ⟨.str "ann@example.com", .str "secret"⟩ emptyDb =
        (⟨201, .credentials "u1" "ann@example.com" "u1.0"⟩,
          ⟨[⟨"u1", "ann@example.com", "salt$secret"⟩], []⟩) ∧
      signup sampleEnv "pepper" "u2" 1 ⟨.str "ann@example.com", .str "other"⟩
          (signup sampleEnv "salt" "u1" 0 ⟨.str "ann@example.com", .str "secret"⟩ emptyDb).2
        = (⟨409, .message "Email already in use"⟩,
            ⟨[⟨"u1", "ann@example.com", "salt$secret"⟩], []⟩) := by
  have h := signup_once_then_conflict sampleEnv "salt" "u1" 0 emptyDb "ann@example.com"
    "secret" (by decide) (by decide) (by decide) (by decide)
  refine ⟨by decide, h.1, ?_⟩
  rw [h.2 "pepper" "u2" 1 (.str "other"), h.1]
  decide

/-- C2.  With a non-empty email and password, login answers 200 exactly when
some stored user has that email and `compare` accepts the password against
that user's digest; the body then carries that user's identifier and email
together with a token issued for that identifier.  Emails are unique in the
store, as the database constraint guarantees. -/
theorem login_succeeds_iff (env : Env) (now : Nat) (db : Db) (email password : String)
    (hEmail : email ≠ "") (hPassword : password ≠ "")
    (hUnique : (db.users.map User.email).Nodup) :
    ((login env now ⟨.str email, .str password⟩ db).1.status = 200 ↔
        ∃ u ∈ db.users, u.email = email ∧ env.compare password u.password = true) ∧
      ∀ u ∈ db.users, u.email = email → env.compare password u.password = true →
        login env now ⟨.str email, .str password⟩ db =
          (⟨200, .credentials u.id u.email (env.sign u.id now)⟩, db) := by
  have hsucc : ∀ u ∈ db.users, u.email = email → env.compare password u.password = true →
      login env now ⟨.str email, .str password⟩ db =
        (⟨200, .credentials u.id u.email (env.sign u.id now)⟩, db) := by
    intro u hu hue hc
    have hf := find_email_some hu hUnique
    rw [hue] at hf
    simp [login, userFindUnique, bcryptCompare, hEmail, hPassword, hf, hc]
  refine ⟨⟨?_, ?_⟩, hsucc⟩
  · intro hstatus
    cases hf : db.users.find? (fun u => decide (u.email = email)) with
    | none =>
        simp [login, userFindUnique, hEmail, hPassword, hf] at hstatus
    | some u =>
        have hu : u ∈ db.users := List.mem_of_find?_eq_some hf
        have hue : u.email = email := by simpa using List.find?_some hf
        refine ⟨u, hu, hue, ?_⟩
        cases hc : env.compare password u.password with
        | true => rfl
        | false =>
            simp [login, userFindUnique, bcryptCompare, hEmail, hPassword, hf, hc] at hstatus
  · rintro ⟨u, hu, hue, hc⟩
    rw [hsucc u hu hue hc]

/-- C2, an instance: the stored user logs in with the right password. -/
theorem login_succeeds_iff_witness :
    ("bob@example.com" ≠ "" ∧ "bob" ≠ "" ∧ (sampleDb.users.map User.email).Nodup) ∧
      login sampleEnv 7 ⟨.str "bob@example.com", .str "bob"⟩ sampleDb =
        (⟨200, .credentials "u1" "bob@example.com" "u1.7"⟩, sampleDb) := by
  have h := login_succeeds_iff sampleEnv 7 sampleDb "bob@example.com" "bob"
    (by decide) (by decide) (by decide)
  exact ⟨by decide, h.2 ⟨"u1", "bob@example.com", "salt$bob"⟩ (by decide) rfl (by decide)⟩

/-- C3.  Two login runs with non-empty email and password, the first failing
because no user has the email and the second because `compare` rejects the
password against the stored digest, produce the same response: status 401 and
the message `Invalid credentials`. -/
theorem login_failures_indistinguishable
    (env1 env2 : Env) (now1 now2 : Nat) (db1 db2 : Db)
    (email1 password1 email2 password2 : String)
    (hEmail1 : email1 ≠ "") (hPassword1 : password1 ≠ "")
    (hEmail2 : email2 ≠ "") (hPassword2 : password2 ≠ "")
    (hAbsent : ∀ u ∈ db1.users, u.email ≠ email1)
    (hUnique : (db2.users.map User.email).Nodup)
    (u : User) (hu : u ∈ db2.users) (hue : u.email = email2)
    (hWrong : env2.compare password2 u.password = false) :
    (login env1 now1 ⟨.str email1, .str password1⟩ db1).1 =
        (login env2 now2 ⟨.str email2, .str password2⟩ db2).1 ∧
      (login env1 now1 ⟨.str email1, .str password1⟩ db1).1 =
        ⟨401, .message "Invalid credentials"⟩ := by
  have h1 := find_email_none hAbsent
  have h2 := find_email_some hu hUnique
  rw [hue] at h2
  constructor <;>
    simp [login, userFindUnique, bcryptCompare, hEmail1, hPassword1, hEmail2, hPassword2,
      h1, h2, hWrong]

/-- C3, an instance: an unknown email and a wrong password for a known email
get the same answer. -/
theorem login_failures_indistinguishable_witness :
    ("eve@example.com" ≠ "" ∧ "guess" ≠ "" ∧ "bob@example.com" ≠ "" ∧ "wrong" ≠ "" ∧
      (∀ u ∈ emptyDb.users, u.email ≠ "eve@example.com") ∧
      (sampleDb.users.map User.email).Nodup ∧
      sampleEnv.compare "wrong" "salt$bob" = false) ∧
    (login sampleEnv 0 ⟨.str "eve@example.com", .str "guess"⟩ emptyDb).1 =
      (login sampleEnv 9 ⟨.str "bob@example.com", .str "wrong"⟩ sampleDb).1 :=
  ⟨by decide,
    (login_failures_indistinguishable sampleEnv sampleEnv 0 9 emptyDb sampleDb
      "eve@example.com" "guess" "bob@example.com" "wrong" (by decide) (by decide)
      (by decide) (by decide) (by decide) (by decide) ⟨"u1", "bob@example.com", "salt$bob"⟩
      (by decide) rfl (by decide)).1⟩


/-! ## The access gate -/

/-- C4.  Whatever the catalog operation, when verification of the bearer token
of the request yields `Invalid` (no token, or a token the primitive rejects)
the router answers 401, no route handler runs, and the database is left as it
was. -/
theorem invalid_token_rejected (env : Env) (now : Nat) (newId : String)
    (authorization : Option String) (req : CatalogRequest) (db : Db)
    (hInvalid : verifyToken env now (bearerToken authorization) = none) :
    (bookRoutes env now newId authorization req db).response.status = 401 ∧
      (bookRoutes env now newId authorization req db).handler = none ∧
      (bookRoutes env now newId authorization req db).db = db := by
  simp [bookRoutes, auth, hInvalid]

/-- C4, an instance: a delete without an authorization header is refused and
the book stays in the store. -/
theorem invalid_token_rejected_witness :
    verifyToken sampleEnv 0 (bearerToken none) = none ∧
      (bookRoutes sampleEnv 0 "b9" none (.delete "b1") sampleDb).response.status = 401 ∧
      (bookRoutes sampleEnv 0 "b9" none (.delete "b1") sampleDb).handler = none ∧
      (bookRoutes sampleEnv 0 "b9" none (.delete "b1") sampleDb).db = sampleDb :=
  ⟨rfl, invalid_token_rejected sampleEnv 0 "b9" none (.delete "b1") sampleDb rfl⟩


/-! ## Listing -/

/-- A list request never writes. -/
theorem listBooks_db (env : Env) (q : ListQuery) (db : Db) : (listBooks env q db).2 = db := by
  unfold listBooks
  simp only []
  split
  · rfl
  · split <;> rfl

/-- What a successful list response was computed from. -/
theorem listBooks_listing {env : Env} {q : ListQuery} {db : Db} {data : List Book}
    {pg : Pagination} (h : (listBooks env q db).1 = ⟨200, .listing data pg⟩) :
    (buildWhere q).valid env = true ∧
      ∃ s t : ℚ,
        ((parseIntStr (q.page.getD "1")).sub (JsNum.ofInt 1)).mul
            (parseIntStr (q.limit.getD "10")) = .fin s ∧
          parseIntStr (q.limit.getD "10") = .fin t ∧ fitsInt64 s = true ∧
          fitsInt64 t = true ∧ 0 ≤ s ∧
          data = window (orderById env (db.books.filter ((buildWhere q).holds env)))
            s.num t.num ∧
          pg = ⟨(db.books.filter ((buildWhere q).holds env)).length,
            parseIntStr (q.page.getD "1"), parseIntStr (q.limit.getD "10"),
            ((JsNum.ofInt (db.books.filter ((buildWhere q).holds env)).length).div
              (parseIntStr (q.limit.getD "10"))).ceil⟩ := by
  unfold listBooks bookCount bookFindMany at h
  simp only [] at h
  cases hv : (buildWhere q).valid env with
  | false => simp [hv, serverError] at h
  | true =>
      refine ⟨rfl, ?_⟩
      simp only [hv, if_true] at h
      cases hs : ((parseIntStr (q.page.getD "1")).sub (JsNum.ofInt 1)).mul
          (parseIntStr (q.limit.getD "10")) with
      | fin s =>
          cases ht : parseIntStr (q.limit.getD "10") with
          | fin t =>
              rw [hs, ht] at h
              simp only [] at h
              by_cases hc : fitsInt64 s = true ∧ fitsInt64 t = true ∧ 0 ≤ s
              · simp only [hc, and_self, if_true] at h
                simp only [Response.mk.injEq, Body.listing.injEq, true_and] at h
                exact ⟨s, t, rfl, rfl, hc.1, hc.2.1, hc.2.2, h.1.symm, h.2.symm⟩
              · simp [hc, serverError] at h
          | nan => rw [hs, ht] at h; simp [serverError] at h
          | posInf => rw [hs, ht] at h; simp [serverError] at h
          | negInf => rw [hs, ht] at h; simp [serverError] at h
      | nan => rw [hs] at h; simp [serverError] at h
      | posInf => rw [hs] at h; simp [serverError] at h
      | negInf => rw [hs] at h; simp [serverError] at h

/-- Every row of a window is a row of the list it was cut from. -/
theorem mem_of_mem_window {rows : List Book} {skip take : Int} {b : Book}
    (h : b ∈ window rows skip take) : b ∈ rows := by
  unfold window at h
  split at h
  · exact List.mem_of_mem_drop (List.mem_of_mem_take h)
  · rw [List.mem_reverse] at h
    exact List.mem_reverse.mp (List.mem_of_mem_drop (List.mem_of_mem_take h))

/-- Ordering rows by identifier keeps the rows. -/
theorem orderById_perm (env : Env) (rows : List Book) : (orderById env rows).Perm rows :=
  List.perm_insertionSort _ rows

/-- The guard on a query parameter keeps a non-empty string. -/
theorem supplied_some {s : String} (h : s ≠ "") : supplied (some s) = some s := by
  simp [supplied, h]

/-- Characters that stand for themselves are read as themselves. -/
theorem likeTokens_literal {literal : List Char}
    (hLiteral : ∀ c ∈ literal, c ≠ '%' ∧ c ≠ '_' ∧ c ≠ '\\') (rest : List Char) :
    likeTokens false (literal ++ rest) =
      literal.map LikeToken.exactly ++ likeTokens false rest := by
  induction literal with
  | nil => rfl
  | cons c literal ih =>
      obtain ⟨h1, h2, h3⟩ := hLiteral c (List.mem_cons_self _ _)
      rw [List.cons_append, likeTokens, if_neg h3, if_neg h1, if_neg h2,
        ih (fun d hd => hLiteral d (List.mem_cons_of_mem _ hd))]
      rfl

/-- A text that matches characters standing for themselves followed by more
pattern starts with these characters, and the rest of it matches the rest of
the pattern. -/
theorem matchTokens_literal (literal : List Char) (tokens : List LikeToken) :
    ∀ text : List Char,
      matchTokens (literal.map LikeToken.exactly ++ tokens) text = true →
        ∃ after, text = literal ++ after ∧ matchTokens tokens after = true := by
  induction literal with
  | nil => intro text h; exact ⟨text, rfl, h⟩
  | cons c literal ih =>
      intro text h
      cases text with
      | nil => simp [matchTokens] at h
      | cons e tail =>
          simp only [List.map_cons, List.cons_append, matchTokens, Bool.and_eq_true,
            decide_eq_true_eq] at h
          obtain ⟨hce, hrest⟩ := h
          obtain ⟨after, htail, hafter⟩ := ih tail hrest
          exact ⟨after, by rw [hce, htail]; rfl, hafter⟩

/-- A needle without `%`, `_` and backslash that matches as a `contains`
pattern occurs in the text as a contiguous run of characters. -/
theorem infix_of_likeMatch {needle text : List Char}
    (hLiteral : ∀ c ∈ needle, c ≠ '%' ∧ c ≠ '_' ∧ c ≠ '\\')
    (h : likeMatch ('%' :: needle ++ ['%']) text = true) : needle <:+: text := by
  unfold likeMatch at h
  rw [List.cons_append, likeTokens, if_neg (by decide), if_pos rfl,
    likeTokens_literal hLiteral, matchTokens, List.any_eq_true] at h
  obtain ⟨tail, hmem, hmatch⟩ := h
  obtain ⟨before, hbefore⟩ := (List.mem_tails _ _).mp hmem
  obtain ⟨after, htail, -⟩ := matchTokens_literal needle _ tail hmatch
  exact ⟨before, after, by rw [← hbefore, htail, List.append_assoc]⟩

/-- C5 (as amended).  Every record in the data of a list response is a stored
record that satisfies all the filters at once.  Its title and its author match
the respective parameter as the `contains` pattern of a case-insensitive
`LIKE`, in which `_` stands for any one character and `%` for any run of
characters; so they contain the parameter as a case-insensitive substring
whenever the parameter, letter case folded, has no `%`, `_` or backslash.  Its
category equals the category parameter whenever that parameter is a non-empty
string, and its rating is at least the numeric value of the rating parameter
whenever that parameter is a non-empty string.  A parameter that is absent or
empty imposes no condition. -/
theorem list_results_satisfy_filters (env : Env) (q : ListQuery) (db : Db)
    (data : List Book) (pg : Pagination)
    (hResponse : (listBooks env q db).1 = ⟨200, .listing data pg⟩)
    (b : Book) (hb : b ∈ data) :
    b ∈ db.books ∧
      (∀ t, q.title = some t →
        likeMatch ('%' :: t.toList.map env.lower ++ ['%']) (b.title.toList.map env.lower)
            = true ∧
          ((∀ c ∈ t.toList.map env.lower, c ≠ '%' ∧ c ≠ '_' ∧ c ≠ '\\') →
            t.toList.map env.lower <:+: b.title.toList.map env.lower)) ∧
      (∀ a, q.author = some a →
        likeMatch ('%' :: a.toList.map env.lower ++ ['%']) (b.author.toList.map env.lower)
            = true ∧
          ((∀ c ∈ a.toList.map env.lower, c ≠ '%' ∧ c ≠ '_' ∧ c ≠ '\\') →
            a.toList.map env.lower <:+: b.author.toList.map env.lower)) ∧
      (∀ c, q.category = some c → c ≠ "" → b.category = c) ∧
      (∀ r, q.rating = some r → r ≠ "" →
        ∃ v : ℚ, parseFloatStr r = .fin v ∧ v ≤ b.rating) := by
  obtain ⟨-, s, t, -, -, -, -, -, hdata, -⟩ := listBooks_listing hResponse
  rw [hdata] at hb
  have hmem := (orderById_perm env _).mem_iff.mp (mem_of_mem_window hb)
  rw [List.mem_filter] at hmem
  obtain ⟨hstore, hholds⟩ := hmem
  simp only [Where.holds, buildWhere, Bool.and_eq_true] at hholds
  obtain ⟨⟨⟨hauthor, hcategory⟩, hrating⟩, htitle⟩ := hholds
  have hlike : ∀ (needle value : String),
      (match supplied (some needle) with
        | some x => containsInsensitive env value x
        | none => true) = true →
      likeMatch ('%' :: needle.toList.map env.lower ++ ['%']) (value.toList.map env.lower)
        = true := by
    intro needle value h
    by_cases he : needle = ""
    · subst he
      unfold likeMatch
      simp only [String.toList, List.map_nil, List.cons_append, List.nil_append]
      rw [likeTokens, if_neg (by decide), if_pos rfl, likeTokens, if_neg (by decide),
        if_pos rfl, matchTokens, List.any_eq_true]
      refine ⟨value.data.map env.lower, (List.mem_tails _ _).mpr (List.suffix_refl _), ?_⟩
      rw [matchTokens, List.any_eq_true]
      exact ⟨[], (List.mem_tails _ _).mpr List.nil_suffix, rfl⟩
    · rw [supplied_some he] at h
      exact h
  refine ⟨hstore, ?_, ?_, ?_, ?_⟩
  · intro t ht
    rw [ht] at htitle
    have hmatch := hlike t b.title htitle
    exact ⟨hmatch, fun hLiteral => infix_of_likeMatch hLiteral hmatch⟩
  · intro a ha
    rw [ha] at hauthor
    have hmatch := hlike a b.author hauthor
    exact ⟨hmatch, fun hLiteral => infix_of_likeMatch hLiteral hmatch⟩
  · intro c hc he
    rw [hc, supplied_some he] at hcategory
    simpa using hcategory
  · intro r hr he
    rw [hr, supplied_some he] at hrating
    simp only [Option.map_some'] at hrating
    cases hv : parseFloatStr r with
    | fin v =>
        rw [hv] at hrating
        exact ⟨v, rfl, by simpa [gteFilter] using hrating⟩
    | nan => rw [hv] at hrating; simp [gteFilter] at hrating
    | posInf => rw [hv] at hrating; simp [gteFilter] at hrating
    | negInf => rw [hv] at hrating; simp [gteFilter] at hrating

/-- C5, the claim as stated fails twice: a query whose category parameter is
the empty string returns a record whose category is not the empty string, and
the query `title=d_ne` returns the record titled `Dune`, in which `d_ne` does
not occur with any letter case. -/
theorem list_empty_category_imposes_nothing :
    ((listBooks sampleEnv ⟨none, some "", none, none, none, none⟩ sampleDb).1 =
        ⟨200, .listing [duneRow, cleanCodeRow] ⟨2, .fin 1, .fin 10, .fin 1⟩⟩ ∧
      duneRow.category ≠ "") ∧
    ((listBooks sampleEnv ⟨none, none, none, some "d_ne", none, none⟩ sampleDb).1 =
        ⟨200, .listing [duneRow] ⟨1, .fin 1, .fin 10, .fin 1⟩⟩ ∧
      ¬ ("d_ne".toList.map Char.toLower <:+: duneRow.title.toList.map Char.toLower)) := by
  decide!

/-- C5, an instance: the query `category=Fiction&rating=4&title=DUN` returns
the one matching record of the example scenario. -/
theorem list_results_satisfy_filters_witness :
    ((listBooks sampleEnv ⟨none, some "Fiction", some "4", some "DUN", none, none⟩
          sampleDb).1 =
        ⟨200, .listing [duneRow] ⟨1, .fin 1, .fin 10, .fin 1⟩⟩ ∧ duneRow ∈ [duneRow]) ∧
      "DUN".toList.map Char.toLower <:+: duneRow.title.toList.map Char.toLower ∧
      duneRow.category = "Fiction" ∧
      ∃ v : ℚ, parseFloatStr "4" = .fin v ∧ v ≤ duneRow.rating := by
  have h : (listBooks sampleEnv ⟨none, some "Fiction", some "4", some "DUN", none, none⟩
      sampleDb).1 = ⟨200, .listing [duneRow] ⟨1, .fin 1, .fin 10, .fin 1⟩⟩ := by decide!
  have hb : duneRow ∈ [duneRow] := List.mem_singleton.mpr rfl
  have key := list_results_satisfy_filters sampleEnv _ sampleDb [duneRow] _ h duneRow hb
  exact ⟨⟨h, hb⟩, (key.2.1 "DUN" rfl).2 (by decide), key.2.2.2.1 "Fiction" rfl (by decide),
    key.2.2.2.2 "4" rfl (by decide)⟩

theorem ofInt_injective {a b : Int} (h : JsNum.ofInt a = JsNum.ofInt b) : a = b := by
  simp only [JsNum.ofInt, JsNum.fin.injEq] at h
  exact_mod_cast h

/-- `Math.ceil(total / limit)` for a non-zero integer limit. -/
theorem ceil_div_ofInt (total : Nat) {n : Int} (hn : n ≠ 0) :
    ((JsNum.ofInt total).div (JsNum.ofInt n)).ceil =
      JsNum.ofInt ⌈(total : ℚ) / (n : ℚ)⌉ := by
  have hq : (n : ℚ) ≠ 0 := by exact_mod_cast hn
  simp [JsNum.ofInt, JsNum.div, JsNum.ceil, hq]

/-- C6 (as amended).  In every list response the pagination object reports as
total the number of stored records that match the filters, whatever the page
and limit parameters are; the reported limit is the parsed limit parameter
(10 when absent); and when that limit is a non-zero integer the reported
number of pages is the ceiling of total over limit.  When the limit is 0 the
reported number of pages is not finite. -/
theorem list_pagination_totals (env : Env) (q : ListQuery) (db : Db) (data : List Book)
    (pg : Pagination) (hResponse : (listBooks env q db).1 = ⟨200, .listing data pg⟩) :
    pg.total = (db.books.filter ((buildWhere q).holds env)).length ∧
      (∀ page2 limit2 data2 pg2,
        (listBooks env ⟨q.author, q.category, q.rating, q.title, page2, limit2⟩ db).1 =
            ⟨200, .listing data2 pg2⟩ → pg2.total = pg.total) ∧
      pg.limit = parseIntStr (q.limit.getD "10") ∧
      (∀ n : Int, pg.limit = JsNum.ofInt n → n ≠ 0 →
        pg.pages = JsNum.ofInt ⌈(pg.total : ℚ) / (n : ℚ)⌉) ∧
      (q.limit = none →
        pg.limit = JsNum.ofInt 10 ∧ pg.pages = JsNum.ofInt ⌈(pg.total : ℚ) / 10⌉) ∧
      (pg.limit = JsNum.ofInt 0 →
        pg.pages = if pg.total = 0 then JsNum.nan else JsNum.posInf) := by
  obtain ⟨-, s, t, -, -, -, -, -, -, hpg⟩ := listBooks_listing hResponse
  have hpages : ∀ n : Int, parseIntStr (q.limit.getD "10") = JsNum.ofInt n → n ≠ 0 →
      pg.pages = JsNum.ofInt ⌈(pg.total : ℚ) / (n : ℚ)⌉ := by
    intro n hlimit hn
    rw [hpg]
    simp only []
    rw [hlimit]
    exact ceil_div_ofInt _ hn
  have hten : parseIntStr "10" = JsNum.ofInt 10 := by decide!
  refine ⟨by rw [hpg], ?_, by rw [hpg], ?_, ?_, ?_⟩
  · intro page2 limit2 data2 pg2 h2
    obtain ⟨-, s2, t2, -, -, -, -, -, -, hpg2⟩ := listBooks_listing h2
    rw [hpg, hpg2]
    rfl
  · intro n hlimit hn
    rw [hpg] at hlimit
    exact hpages n hlimit hn
  · intro hnone
    have hlimit : parseIntStr (q.limit.getD "10") = JsNum.ofInt 10 := by
      rw [hnone]
      exact hten
    refine ⟨by rw [hpg]; exact hlimit, ?_⟩
    have := hpages 10 hlimit (by decide)
    simpa using this
  · intro hzero
    rw [hpg] at hzero ⊢
    simp only [] at hzero ⊢
    rw [hzero]
    by_cases h0 : (db.books.filter ((buildWhere q).holds env)).length = 0
    · simp [JsNum.ofInt, JsNum.div, JsNum.ceil, h0]
    · have hneg : ¬ ((db.books.filter ((buildWhere q).holds env)).length : ℚ) < 0 :=
        not_lt.mpr (Nat.cast_nonneg _)
      simp [JsNum.ofInt, JsNum.div, JsNum.ceil, JsNum.inf, h0, hneg]

/-- C6, the claim as stated fails: with `limit=0` the response reports two
matching records and an infinite number of pages. -/
theorem list_limit_zero_pages_infinite :
    (listBooks sampleEnv ⟨none, none, none, none, none, some "0"⟩ sampleDb).1 =
      ⟨200, .listing [] ⟨2, .fin 1, .fin 0, .posInf⟩⟩ := by
  decide!

/-- C6, an instance: two matching records listed with `limit=1` make two
pages. -/
theorem list_pagination_totals_witness :
    (listBooks sampleEnv ⟨none, none, none, none, none, some "1"⟩ sampleDb).1 =
        ⟨200, .listing [duneRow] ⟨2, .fin 1, .fin 1, .fin 2⟩⟩ ∧
      (2 : Nat) = (sampleDb.books.filter
        ((buildWhere ⟨none, none, none, none, none, some "1"⟩).holds sampleEnv)).length ∧
      JsNum.fin 2 = JsNum.ofInt ⌈((2 : Nat) : ℚ) / ((1 : Int) : ℚ)⌉ := by
  have h : (listBooks sampleEnv ⟨none, none, none, none, none, some "1"⟩ sampleDb).1 =
      ⟨200, .listing [duneRow] ⟨2, .fin 1, .fin 1, .fin 2⟩⟩ := by decide!
  have key := list_pagination_totals sampleEnv _ sampleDb _ _ h
  exact ⟨h, key.1, key.2.2.2.1 1 rfl (by decide)⟩


/-- An integer read as a rational is an integer. -/
theorem intCast_isInt (z : Int) : ((z : Int) : ℚ).isInt = true := by
  simp only [Rat.isInt, Rat.intCast_den]
  rfl

/-- An integer of magnitude up to `2 ^ 53` is a binary64 value. -/
theorem toBinary64_intCast (z : Int) (h : z.natAbs ≤ 2 ^ 53) :
    toBinary64 (z : ℚ) = .fin (z : ℚ) := by
  unfold toBinary64
  rw [if_pos]
  exact ⟨Rat.intCast_den z, by rw [Rat.intCast_num]; exact h⟩

/-- A non-negative integer up to `2 ^ 53` is an integer of 64 bits. -/
theorem fitsInt64_intCast {z : Int} (h0 : 0 ≤ z) (h : z ≤ 2 ^ 53) :
    fitsInt64 (z : ℚ) = true := by
  have h1 : -(2 : ℚ) ^ 63 ≤ (z : ℚ) := by
    have : (0 : ℚ) ≤ (z : ℚ) := by exact_mod_cast h0
    linarith [show (0 : ℚ) ≤ (2 : ℚ) ^ 63 by positivity]
  have h2 : (z : ℚ) < (2 : ℚ) ^ 63 := by
    have : (z : ℚ) ≤ (2 : ℚ) ^ 53 := by exact_mod_cast h
    linarith [show (2 : ℚ) ^ 53 < (2 : ℚ) ^ 63 by norm_num]
  simp [fitsInt64, intCast_isInt, h1, h2]

/-- C7 (as amended).  For a list query whose page parses to an integer from 1
to 2^53, whose limit parses to an integer from 0 to 2^53, whose offset
(page − 1) × limit is at most 2^53, and whose filter values the client and the
database accept, the response is 200, its records are the matching records in
ascending order of identifier from offset (page − 1) × limit on, at most limit
of them, and the database is unchanged.  An absent page is 1 and an absent
limit is 10; such a query with neither returns the first min(10, total)
matching records. -/
theorem list_window (env : Env) (q : ListQuery) (db : Db) (p n : Int)
    (hPage : parseIntStr (q.page.getD "1") = JsNum.ofInt p)
    (hLimit : parseIntStr (q.limit.getD "10") = JsNum.ofInt n)
    (hp : 1 ≤ p) (hpSafe : p ≤ 2 ^ 53) (hn : 0 ≤ n) (hnSafe : n ≤ 2 ^ 53)
    (hOffset : (p - 1) * n ≤ 2 ^ 53)
    (hFilters : (buildWhere q).valid env = true) :
    ∃ pg : Pagination,
      listBooks env q db =
          (⟨200, .listing (((orderById env (db.books.filter ((buildWhere q).holds env))).drop
              ((p - 1) * n).toNat).take n.toNat) pg⟩, db) ∧
        pg.page = JsNum.ofInt p ∧ pg.limit = JsNum.ofInt n ∧
        (((orderById env (db.books.filter ((buildWhere q).holds env))).drop
            ((p - 1) * n).toNat).take n.toNat).length ≤ n.toNat ∧
        (orderById env (db.books.filter ((buildWhere q).holds env))).Perm
          (db.books.filter ((buildWhere q).holds env)) ∧
        (q.page = none → p = 1) ∧ (q.limit = none → n = 10) ∧
        (q.page = none → q.limit = none →
          ((orderById env (db.books.filter ((buildWhere q).holds env))).drop
              ((p - 1) * n).toNat).take n.toNat =
              (orderById env (db.books.filter ((buildWhere q).holds env))).take 10 ∧
            ((orderById env (db.books.filter ((buildWhere q).holds env))).take 10).length =
              min 10 (db.books.filter ((buildWhere q).holds env)).length) := by
  have hoff0 : (0 : Int) ≤ (p - 1) * n := Int.mul_nonneg (by omega) hn
  have hsub : (JsNum.ofInt p).sub (JsNum.ofInt 1) = .fin (((p - 1 : Int)) : ℚ) := by
    have h := toBinary64_intCast (p - 1) (by omega)
    simp only [JsNum.ofInt, JsNum.sub]
    rw [← h]
    congr 1
    push_cast
    ring
  have hskip : ((parseIntStr (q.page.getD "1")).sub (JsNum.ofInt 1)).mul
      (parseIntStr (q.limit.getD "10")) = .fin ((((p - 1) * n : Int)) : ℚ) := by
    rw [hPage, hLimit, hsub]
    have h := toBinary64_intCast ((p - 1) * n) (by omega)
    simp only [JsNum.ofInt, JsNum.mul]
    rw [← h]
    congr 1
    push_cast
    ring
  have hnonneg : (0 : ℚ) ≤ (((p - 1) * n : Int) : ℚ) := by exact_mod_cast hoff0
  have hpageOne : q.page = none → p = 1 := by
    intro h
    rw [h] at hPage
    have h1 : parseIntStr "1" = JsNum.ofInt 1 := by decide!
    exact (ofInt_injective (h1.symm.trans hPage)).symm
  have hlimitTen : q.limit = none → n = 10 := by
    intro h
    rw [h] at hLimit
    have h10 : parseIntStr "10" = JsNum.ofInt 10 := by decide!
    exact (ofInt_injective (h10.symm.trans hLimit)).symm
  refine ⟨⟨(db.books.filter ((buildWhere q).holds env)).length, JsNum.ofInt p, JsNum.ofInt n,
    ((JsNum.ofInt (db.books.filter ((buildWhere q).holds env)).length).div
      (JsNum.ofInt n)).ceil⟩,
    ?_, rfl, rfl, ?_, orderById_perm env _, hpageOne, hlimitTen, ?_⟩
  · unfold listBooks bookCount bookFindMany
    simp only [hFilters, if_true, hskip]
    rw [hLimit, hPage]
    have hcond : fitsInt64 ((((p - 1) * n : Int)) : ℚ) = true ∧
        fitsInt64 ((n : Int) : ℚ) = true ∧ (0 : ℚ) ≤ (((p - 1) * n : Int) : ℚ) :=
      ⟨fitsInt64_intCast hoff0 hOffset, fitsInt64_intCast hn hnSafe, hnonneg⟩
    simp only [JsNum.ofInt, hcond, and_self, if_true, Rat.intCast_num, window, hn, if_true]
  · exact (List.length_take_le _ _)
  · intro h1 h2
    have e1 := hpageOne h1
    have e2 := hlimitTen h2
    subst e1 e2
    have hlen : (orderById env (db.books.filter ((buildWhere q).holds env))).length =
        (db.books.filter ((buildWhere q).holds env)).length :=
      (orderById_perm env _).length_eq
    simp [hlen]

/-- C7, the claim as stated fails: with `limit=-1` the response carries one
record, more than the limit, and it is the last matching record rather than the
one at offset 0. -/
theorem list_negative_limit_returns_last :
    (listBooks sampleEnv ⟨none, none, none, none, none, some "-1"⟩ sampleDb).1 =
      ⟨200, .listing [cleanCodeRow] ⟨2, .fin 1, .fin (-1), .fin (-2)⟩⟩ := by
  decide!

/-- C7, an instance: page 2 with limit 1 over two matching records returns the
second one in the order of identifiers. -/
theorem list_window_witness :
    (parseIntStr "2" = JsNum.ofInt 2 ∧ parseIntStr "1" = JsNum.ofInt 1 ∧
      (1 : Int) ≤ 2 ∧ (2 : Int) ≤ 2 ^ 53 ∧ (0 : Int) ≤ 1 ∧ (1 : Int) ≤ 2 ^ 53 ∧
      ((2 : Int) - 1) * 1 ≤ 2 ^ 53 ∧
      (buildWhere ⟨none, none, none, none, some "2", some "1"⟩).valid sampleEnv = true) ∧
    ∃ pg : Pagination,
      listBooks sampleEnv ⟨none, none, none, none, some "2", some "1"⟩ sampleDb =
        (⟨200, .listing [cleanCodeRow] pg⟩, sampleDb) := by
  obtain ⟨pg, h, -⟩ := list_window sampleEnv ⟨none, none, none, none, some "2", some "1"⟩
    sampleDb 2 1 (by decide!) (by decide!) (by decide) (by decide) (by decide) (by decide)
    (by decide) (by decide)
  have hdata : ((orderById sampleEnv (sampleDb.books.filter
      ((buildWhere ⟨none, none, none, none, some "2", some "1"⟩).holds sampleEnv))).drop
        (((2 : Int) - 1) * 1).toNat).take (1 : Int).toNat = [cleanCodeRow] := by decide!
  rw [hdata] at h
  exact ⟨by decide!, pg, h⟩

/-! ## Update, delete and create -/

/-- Looking a stored book up by its identifier finds that book when the
identifiers of the store are pairwise distinct. -/
theorem find_id_some {books : List Book} {b : Book} (hb : b ∈ books)
    (hnodup : (books.map Book.id).Nodup) :
    books.find? (fun v => decide (v.id = b.id)) = some b := by
  induction books with
  | nil => cases hb
  | cons v rest ih =>
      rw [List.map_cons, List.nodup_cons] at hnodup
      by_cases hv : v.id = b.id
      · have : v = b := by
          rcases List.mem_cons.mp hb with h | h
          · exact h.symm
          · exact absurd (hv ▸ List.mem_map_of_mem Book.id h) hnodup.1
        subst this
        simp
      · have hmem : b ∈ rest := by
          rcases List.mem_cons.mp hb with h | h
          · exact absurd (h ▸ rfl) hv
          · exact h
        simp [List.find?_cons, hv, ih hmem hnodup.2]

/-- Two stored books with the same identifier are the same book when the
identifiers of the store are pairwise distinct. -/
theorem eq_of_id_eq {books : List Book} {a b : Book} (ha : a ∈ books) (hb : b ∈ books)
    (hnodup : (books.map Book.id).Nodup) (h : a.id = b.id) : a = b := by
  have h1 := find_id_some ha hnodup
  have h2 := find_id_some hb hnodup
  rw [h] at h1
  exact Option.some.inj (h1.symm.trans h2)

/-- A column whose key is absent from the payload keeps its value. -/
theorem writeColumn_none {α β : Type} {check : α → Except Fault β} {old new : β}
    {v : Option α} (h : writeColumn check old v = .ok new) (hv : v = none) : new = old := by
  subst hv
  simpa [writeColumn] using h.symm

/-- What writing a payload over a row leaves alone. -/
theorem applyData_frame {env : Env} {old new : Book} {d : BookData}
    (h : applyData env old d = .ok new) :
    new.id = old.id ∧ new.userId = old.userId ∧
      (d.title = none → new.title = old.title) ∧
      (d.author = none → new.author = old.author) ∧
      (d.category = none → new.category = old.category) ∧
      (d.price = none → new.price = old.price) ∧
      (d.rating = none → new.rating = old.rating) ∧
      (d.publishedDate = none → new.publishedDate = old.publishedDate) := by
  unfold applyData at h
  split at h
  · rename_i t a c p r day ht ha hc hp hr hday
    simp only [Except.ok.injEq] at h
    subst h
    exact ⟨rfl, rfl, writeColumn_none ht, writeColumn_none ha, writeColumn_none hc,
      writeColumn_none hp, writeColumn_none hr, writeColumn_none hday⟩
  · cases h

/-- A falsy value puts no key in the payload. -/
theorem whenTruthy_undefined {α : Type} (f : JsVal → α) : whenTruthy .undefined f = none := rfl

/-- An undefined value puts no key in the payload. -/
theorem whenDefined_undefined {α : Type} (f : JsVal → α) :
    whenDefined .undefined f = none := rfl

/-- C8.  An update of a stored book rewrites that row and nothing else: the
store afterwards is the store before with the row replaced by the updated
record, in which the identifier, the owner reference and every field that the
request does not supply have their values from before the update.  The
response is 200 with the updated record, or 500 when the persistence call
rejects the payload, and then the row is as it was.  Identifiers are unique in
the store, as the database constraint guarantees. -/
theorem update_keeps_absent_fields (env : Env) (id : String) (body : BookBody) (db : Db)
    (old : Book) (hOld : old ∈ db.books) (hId : old.id = id)
    (hUnique : (db.books.map Book.id).Nodup) :
    ∃ new : Book,
      (updateBook env id body db).2 =
          ⟨db.users, db.books.map (fun b => if b = old then new else b)⟩ ∧
        ((updateBook env id body db).1 = ⟨200, .book new⟩ ∨
          ((updateBook env id body db).1 = serverError ∧ new = old)) ∧
        new.id = old.id ∧ new.userId = old.userId ∧
        (body.title = .undefined → new.title = old.title) ∧
        (body.author = .undefined → new.author = old.author) ∧
        (body.category = .undefined → new.category = old.category) ∧
        (body.price = .undefined → new.price = old.price) ∧
        (body.rating = .undefined → new.rating = old.rating) ∧
        (body.publishedDate = .undefined → new.publishedDate = old.publishedDate) := by
  have hfind : db.books.find? (fun b => decide (b.id = id)) = some old := by
    rw [← hId]
    exact find_id_some hOld hUnique
  cases hdata : applyData env old (updateData env body) with
  | error e =>
      refine ⟨old, ?_, Or.inr ⟨?_, rfl⟩, rfl, rfl, fun _ => rfl, fun _ => rfl, fun _ => rfl,
        fun _ => rfl, fun _ => rfl, fun _ => rfl⟩
      · have hmap : db.books.map (fun b => if b = old then old else b) = db.books := by
          conv_rhs => rw [← List.map_id db.books]
          apply List.map_congr_left
          intro b _
          by_cases hbo : b = old <;> simp [hbo]
        simp [updateBook, bookFindUnique, bookUpdate, hfind, hdata, hmap]
      · simp [updateBook, bookFindUnique, bookUpdate, hfind, hdata]
  | ok new =>
      obtain ⟨h1, h2, ht, ha, hc, hp, hr, hday⟩ := applyData_frame hdata
      refine ⟨new, ?_, Or.inl ?_, h1, h2, ?_, ?_, ?_, ?_, ?_, ?_⟩
      · simp only [updateBook, bookFindUnique, bookUpdate, hfind, hdata]
        congr 1
        apply List.map_congr_left
        intro b hb
        by_cases hbo : b = old
        · simp [hbo, hId]
        · have : b.id ≠ id := fun h => hbo (eq_of_id_eq hb hOld hUnique (h.trans hId.symm))
          simp [hbo, this]
      · simp [updateBook, bookFindUnique, bookUpdate, hfind, hdata]
      · intro h; exact ht (by simp [updateData, h, whenTruthy_undefined])
      · intro h; exact ha (by simp [updateData, h, whenTruthy_undefined])
      · intro h; exact hc (by simp [updateData, h, whenTruthy_undefined])
      · intro h; exact hp (by simp [updateData, h, whenDefined_undefined])
      · intro h; exact hr (by simp [updateData, h, whenDefined_undefined])
      · intro h; exact hday (by simp [updateData, h, whenTruthy_undefined])

/-- C8, an instance: the update `{price: 375}` of the example scenario changes
the price of the record and nothing else. -/
theorem update_keeps_absent_fields_witness :
    (duneRow ∈ sampleDb.books ∧ duneRow.id = "b1" ∧ (sampleDb.books.map Book.id).Nodup) ∧
      (updateBook sampleEnv "b1"
          ⟨.undefined, .undefined, .undefined, .num (.fin 375), .undefined, .undefined⟩
          sampleDb).1.status = 200 ∧
      ∃ new : Book,
        (updateBook sampleEnv "b1"
            ⟨.undefined, .undefined, .undefined, .num (.fin 375), .undefined, .undefined⟩
            sampleDb).2 =
          ⟨sampleDb.users, sampleDb.books.map (fun b => if b = duneRow then new else b)⟩ ∧
        new.id = "b1" ∧ new.title = "Dune" ∧ new.author = "Frank Herbert" ∧
        new.category = "Fiction" ∧ new.rating = 2758454771764429 / 562949953421312 ∧
        new.publishedDate = -139449600000 := by
  obtain ⟨new, hdb, -, hid, -, ht, ha, hc, -, hr, hday⟩ :=
    update_keeps_absent_fields sampleEnv "b1"
      ⟨.undefined, .undefined, .undefined, .num (.fin 375), .undefined, .undefined⟩
      sampleDb duneRow (List.mem_cons_self _ _) rfl (by decide)
  exact ⟨⟨List.mem_cons_self _ _, rfl, by decide⟩, by decide!,
    new, hdb, hid, ht rfl, ha rfl, hc rfl, hr rfl, hday rfl⟩

/-- C9.  Whatever the store and the identifier, a get that follows a delete of
the same identifier answers 404, whether the delete found a record (204) or
not (404). -/
theorem delete_then_get_not_found (id : String) (db : Db) :
    (getBook id (deleteBook id db).2).1 = ⟨404, .message "Book not found"⟩ ∧
      ((deleteBook id db).1.status = 204 ∨ (deleteBook id db).1.status = 404) := by
  cases hfind : db.books.find? (fun b => decide (b.id = id)) with
  | none =>
      simp [deleteBook, getBook, bookFindUnique, hfind]
  | some old =>
      have hgone : (db.books.filter (fun b => !decide (b.id = id))).find?
          (fun b => decide (b.id = id)) = none := by
        rw [List.find?_eq_none]
        intro b hb
        have := (List.mem_filter.mp hb).2
        simpa using this
      simp [deleteBook, getBook, bookFindUnique, bookDelete, hfind, hgone]

/-- C10 (as amended).  A create request in which any of the six fields is
missing answers 400 and adds no record.  A create request whose title, author
and category are non-empty strings, whose price and rating parse to finite
numbers, whose published date is a non-empty value that parses to a valid
date, and whose values the database accepts for their columns answers 201 with
the persisted record: the generated identifier, the title, author and category
as given, the parsed price and rating, the parsed date, and no owner (the
identifier generated by the database being unused).  The database afterwards
is the database before with that record appended. -/
theorem create_validates_then_persists (env : Env) (newId : String) (body : BookBody)
    (db : Db) :
    ((body.title = .undefined ∨ body.author = .undefined ∨ body.category = .undefined ∨
        body.price = .undefined ∨ body.rating = .undefined ∨
        body.publishedDate = .undefined) →
      createBook env newId body db = (⟨400, .message "All fields are required"⟩, db)) ∧
    (∀ (t a c : String) (p r : ℚ) (day : Int),
      body.title = .str t → t ≠ "" → env.acceptsText t = true →
      body.author = .str a → a ≠ "" → env.acceptsText a = true →
      body.category = .str c → c ≠ "" → env.acceptsText c = true →
      parseFloat body.price = .fin p → env.acceptsFloat p = true →
      parseFloat body.rating = .fin r → env.acceptsFloat r = true →
      body.publishedDate.truthy = true → env.parseDate body.publishedDate = some day →
      env.acceptsDate day = true →
      (∀ b ∈ db.books, b.id ≠ newId) →
      createBook env newId body db =
        (⟨201, .book ⟨newId, t, a, c, p, r, day, none⟩⟩,
          ⟨db.users, db.books ++ [⟨newId, t, a, c, p, r, day, none⟩]⟩)) := by
  constructor
  · intro h
    unfold createBook
    rw [if_pos]
    rcases h with h | h | h | h | h | h <;> simp [h, JsVal.truthy]
  · intro t a c p r day ht hte hta ha hae haa hc hce hca hp hpa hr hra hd hday hdaya hfresh
    have hpu : body.price ≠ .undefined := by
      intro h
      rw [h] at hp
      cases hp
    have hru : body.rating ≠ .undefined := by
      intro h
      rw [h] at hr
      cases hr
    have hany : db.books.any (fun b => decide (b.id = newId)) = false := by
      rw [List.any_eq_false]
      intro b hb
      simpa using hfresh b hb
    unfold createBook
    rw [if_neg (by simp [ht, ha, hc, hte, hae, hce, hpu, hru, hd])]
    simp [bookCreate, stringColumn, floatColumn, dateColumn, ht, ha, hc, hp, hr, hday, hany,
      hta, haa, hca, hpa, hra, hdaya]

/-- C10, the claim as stated fails: a create request with all six fields present
but an empty title answers 400. -/
theorem create_empty_title_rejected :
    createBook sampleEnv "b1"
        ⟨.str "", .str "Frank Herbert", .str "Fiction", .num (.fin 350), .str "4.9",
          .str "1965-08-01"⟩ emptyDb =
      (⟨400, .message "All fields are required"⟩, emptyDb) := by
  decide!

/-- C10, an instance: the create request of the example scenario persists the
record, with the rating 4.9 as its nearest binary64 value, and the same request
without a price is refused. -/
theorem create_validates_then_persists_witness :
    createBook sampleEnv "b1" duneBody emptyDb =
        (⟨201, .book duneRow⟩, ⟨[], [duneRow]⟩) ∧
      createBook sampleEnv "b1"
          ⟨.str "Dune", .str "Frank Herbert", .str "Fiction", .undefined, .str "4.9",
            .str "1965-08-01"⟩ emptyDb =
        (⟨400, .message "All fields are required"⟩, emptyDb) := by
  constructor
  · exact (create_validates_then_persists sampleEnv "b1" duneBody emptyDb).2
      "Dune" "Frank Herbert" "Fiction" 350 (2758454771764429 / 562949953421312)
      (-139449600000)
      rfl (by decide) (by decide) rfl (by decide) (by decide) rfl (by decide) (by decide)
      (by decide!) (by decide!) (by decide!) (by decide!) (by decide!) rfl (by decide)
      (by decide)
  · exact (create_validates_then_persists sampleEnv "b1" _ emptyDb).1
      (Or.inr (Or.inr (Or.inr (Or.inl rfl))))


/-! ## The owner of a created record -/

/-- A row that `create` persists has the generated identifier and no owner,
and is appended to the books of the store. -/
theorem bookCreate_row {env : Env} {db db' : Db} {newId : String} {d : BookData}
    {book : Book} (h : bookCreate env db newId d = .ok (book, db')) :
    book.id = newId ∧ book.userId = none ∧ db' = ⟨db.users, db.books ++ [book]⟩ := by
  unfold bookCreate at h
  split at h
  · split at h
    · split at h
      · cases h
      · simp only [Except.ok.injEq, Prod.mk.injEq] at h
        obtain ⟨hbook, hdb⟩ := h
        subst hbook
        exact ⟨rfl, rfl, hdb.symm⟩
    · cases h
  · cases h

/-- What a create request answered with 201 has done. -/
theorem createBook_created {env : Env} {newId : String} {body : BookBody} {db : Db}
    (h : (createBook env newId body db).1.status = 201) :
    ∃ book : Book,
      createBook env newId body db = (⟨201, .book book⟩, ⟨db.users, db.books ++ [book]⟩) ∧
        book.id = newId ∧ book.userId = none := by
  unfold createBook at h ⊢
  split at h
  · simp at h
  · rename_i hfields
    rw [if_neg hfields]
    cases hc : bookCreate env db newId
        ⟨some body.title, some body.author, some body.category,
          some (parseFloat body.price), some (parseFloat body.rating),
          some (env.parseDate body.publishedDate)⟩ with
    | error e => rw [hc] at h; simp [serverError] at h
    | ok result =>
        obtain ⟨book, db'⟩ := result
        obtain ⟨hid, howner, hdb⟩ := bookCreate_row hc
        exact ⟨book, by simp [hdb], hid, howner⟩

/-- C11, what the code does.  Whoever the authenticated user is, a create
request that the router answers with 201 persists a record whose owning-user
reference is null: the handler builds the payload from the six body fields
only, and the user resolved by the gate is not part of it. -/
theorem create_leaves_owner_unset (env : Env) (now : Nat) (newId : String)
    (authorization : Option String) (body : BookBody) (db : Db) (user : String)
    (hAuth : auth env now authorization = .ok user)
    (hCreated : (bookRoutes env now newId authorization (.create body) db).response.status
      = 201) :
    ∃ book : Book,
      (bookRoutes env now newId authorization (.create body) db).response =
          ⟨201, .book book⟩ ∧
        (bookRoutes env now newId authorization (.create body) db).db =
          ⟨db.users, db.books ++ [book]⟩ ∧
        book.id = newId ∧ book.userId = none := by
  have hroute : bookRoutes env now newId authorization (.create body) db =
      ⟨(createBook env newId body db).1, (createBook env newId body db).2, some .create⟩ := by
    simp [bookRoutes, hAuth, dispatch, CatalogRequest.operation]
  rw [hroute] at hCreated ⊢
  obtain ⟨book, hbook, hid, howner⟩ := createBook_created hCreated
  exact ⟨book, by rw [hbook], by rw [hbook], hid, howner⟩

/-- C11, the failing input: user `u1`, authenticated by the token `good`,
creates the book of the example scenario; the persisted record has no owner. -/
theorem create_leaves_owner_unset_witness :
    (auth sampleEnv 0 (some "Bearer good") = .ok "u1" ∧
      (bookRoutes sampleEnv 0 "b1" (some "Bearer good") (.create duneBody)
        emptyDb).response.status = 201) ∧
    ∃ book : Book,
      (bookRoutes sampleEnv 0 "b1" (some "Bearer good") (.create duneBody) emptyDb).db =
          ⟨[], [book]⟩ ∧
        book.id = "b1" ∧ book.userId = none ∧ book.userId ≠ some "u1" := by
  have hAuth : auth sampleEnv 0 (some "Bearer good") = .ok "u1" := by rfl
  have hCreated : (bookRoutes sampleEnv 0 "b1" (some "Bearer good") (.create duneBody)
      emptyDb).response.status = 201 := by decide!
  obtain ⟨book, -, hdb, hid, howner⟩ :=
    create_leaves_owner_unset sampleEnv 0 "b1" (some "Bearer good") duneBody emptyDb "u1"
      hAuth hCreated
  exact ⟨⟨hAuth, hCreated⟩, book, hdb, hid, howner, by rw [howner]; exact fun h => nomatch h⟩

/-! ## Unknown and known identifiers -/

/-- Looking an identifier up finds nothing exactly when no stored book has it. -/
theorem find_id_none_iff {books : List Book} {id : String} :
    books.find? (fun b => decide (b.id = id)) = none ↔ ∀ b ∈ books, b.id ≠ id := by
  rw [List.find?_eq_none]
  constructor
  · intro h b hb
    simpa using h b hb
  · intro h b hb
    simpa using h b hb

/-- Dropping the rows with the identifier of a stored book drops that book
only, when identifiers are pairwise distinct. -/
theorem filter_id_eq_filter_ne {books : List Book} {old : Book} (hOld : old ∈ books)
    (hnodup : (books.map Book.id).Nodup) :
    books.filter (fun b => !decide (b.id = old.id)) =
      books.filter (fun b => decide (b ≠ old)) := by
  apply List.filter_congr
  intro b hb
  by_cases hbo : b = old
  · simp [hbo]
  · have : b.id ≠ old.id := fun h => hbo (eq_of_id_eq hb hOld hnodup h)
    simp [hbo, this]

/-- C12.  In a store whose identifiers are unique, each of get, update and
delete answers 404 exactly when no stored book has the identifier, and then the
database is left as it was.  On the identifier of a stored book, get answers
200 with that book; update answers 200 with the updated record and replaces
that row only, unless the persistence call rejects the payload; delete answers
204 with an empty body and removes that book and no other. -/
theorem not_found_iff_unknown_id (env : Env) (id : String) (body : BookBody) (db : Db)
    (hUnique : (db.books.map Book.id).Nodup) :
    (((getBook id db).1.status = 404 ↔ ∀ b ∈ db.books, b.id ≠ id) ∧
      ((updateBook env id body db).1.status = 404 ↔ ∀ b ∈ db.books, b.id ≠ id) ∧
      ((deleteBook id db).1.status = 404 ↔ ∀ b ∈ db.books, b.id ≠ id)) ∧
    ((∀ b ∈ db.books, b.id ≠ id) →
      getBook id db = (⟨404, .message "Book not found"⟩, db) ∧
      updateBook env id body db = (⟨404, .message "Book not found"⟩, db) ∧
      deleteBook id db = (⟨404, .message "Book not found"⟩, db)) ∧
    (∀ old ∈ db.books, old.id = id →
      getBook id db = (⟨200, .book old⟩, db) ∧
      (∀ new, applyData env old (updateData env body) = .ok new →
        updateBook env id body db =
          (⟨200, .book new⟩,
            ⟨db.users, db.books.map (fun b => if b = old then new else b)⟩)) ∧
      (∀ e, applyData env old (updateData env body) = .error e →
        updateBook env id body db = (serverError, db)) ∧
      deleteBook id db =
        (⟨204, .empty⟩, ⟨db.users, db.books.filter (fun b => decide (b ≠ old))⟩)) := by
  have hknown : ∀ old ∈ db.books, old.id = id →
      getBook id db = (⟨200, .book old⟩, db) ∧
      (∀ new, applyData env old (updateData env body) = .ok new →
        updateBook env id body db =
          (⟨200, .book new⟩,
            ⟨db.users, db.books.map (fun b => if b = old then new else b)⟩)) ∧
      (∀ e, applyData env old (updateData env body) = .error e →
        updateBook env id body db = (serverError, db)) ∧
      deleteBook id db =
        (⟨204, .empty⟩, ⟨db.users, db.books.filter (fun b => decide (b ≠ old))⟩) := by
    intro old hOld hId
    have hfind : db.books.find? (fun b => decide (b.id = id)) = some old := by
      rw [← hId]
      exact find_id_some hOld hUnique
    refine ⟨?_, ?_, ?_, ?_⟩
    · simp [getBook, bookFindUnique, hfind]
    · intro new hnew
      simp only [updateBook, bookFindUnique, bookUpdate, hfind, hnew]
      congr 2
      apply List.map_congr_left
      intro b hb
      by_cases hbo : b = old
      · simp [hbo, hId]
      · have : b.id ≠ id := fun h => hbo (eq_of_id_eq hb hOld hUnique (h.trans hId.symm))
        simp [hbo, this]
    · intro e he
      simp [updateBook, bookFindUnique, bookUpdate, hfind, he]
    · have hfilter := filter_id_eq_filter_ne hOld hUnique
      rw [hId] at hfilter
      simp [deleteBook, bookFindUnique, bookDelete, hfind, hfilter]
  have hunknown : (∀ b ∈ db.books, b.id ≠ id) →
      getBook id db = (⟨404, .message "Book not found"⟩, db) ∧
      updateBook env id body db = (⟨404, .message "Book not found"⟩, db) ∧
      deleteBook id db = (⟨404, .message "Book not found"⟩, db) := by
    intro h
    have hfind := find_id_none_iff.mpr h
    simp [getBook, updateBook, deleteBook, bookFindUnique, hfind]
  have hstatus : ∀ old ∈ db.books, old.id = id →
      (getBook id db).1.status ≠ 404 ∧ (updateBook env id body db).1.status ≠ 404 ∧
        (deleteBook id db).1.status ≠ 404 := by
    intro old hOld hId
    obtain ⟨hget, hok, herr, hdel⟩ := hknown old hOld hId
    refine ⟨by rw [hget]; simp, ?_, by rw [hdel]; simp⟩
    cases hdata : applyData env old (updateData env body) with
    | ok new => rw [hok new hdata]; simp
    | error e => rw [herr e hdata]; simp [serverError]
  refine ⟨⟨?_, ?_, ?_⟩, hunknown, hknown⟩
  · refine ⟨fun h b hb hid => (hstatus b hb hid).1 h, fun h => ?_⟩
    rw [(hunknown h).1]
  · refine ⟨fun h b hb hid => (hstatus b hb hid).2.1 h, fun h => ?_⟩
    rw [(hunknown h).2.1]
  · refine ⟨fun h b hb hid => (hstatus b hb hid).2.2 h, fun h => ?_⟩
    rw [(hunknown h).2.2]

/-- C12, an instance: in the sample store an unknown identifier gets 404 from
get, the identifier `b1` gets its record from get, and delete of `b1` leaves the
other book only. -/
theorem not_found_iff_unknown_id_witness :
    (sampleDb.books.map Book.id).Nodup ∧
      getBook "b7" sampleDb = (⟨404, .message "Book not found"⟩, sampleDb) ∧
      getBook "b1" sampleDb = (⟨200, .book duneRow⟩, sampleDb) ∧
      deleteBook "b1" sampleDb = (⟨204, .empty⟩, ⟨sampleDb.users, [cleanCodeRow]⟩) := by
  have hUnique : (sampleDb.books.map Book.id).Nodup := by decide
  have key := not_found_iff_unknown_id sampleEnv "b1" emptyBody sampleDb hUnique
  have key7 := not_found_iff_unknown_id sampleEnv "b7" emptyBody sampleDb hUnique
  have hknown := key.2.2 duneRow (List.mem_cons_self _ _) rfl
  have hrest : sampleDb.books.filter (fun b => decide (b ≠ duneRow)) = [cleanCodeRow] := by
    decide!
  refine ⟨hUnique, (key7.2.1 (by decide)).1, hknown.1, ?_⟩
  rw [hknown.2.2.2, hrest]

/-! ## The update payload -/

/-- A column write succeeds when the payload has no value for it or has one
the column accepts. -/
theorem writeColumn_ok {α β : Type} {check : α → Except Fault β} (old : β) {v : Option α}
    (h : ∀ x, v = some x → ∃ y, check x = .ok y) :
    ∃ y, writeColumn check old v = .ok y := by
  cases v with
  | none => exact ⟨old, rfl⟩
  | some x => exact h x rfl

/-- The value a successful column write leaves: the old one without a key, the
accepted one with a key. -/
theorem writeColumn_value {α β : Type} {check : α → Except Fault β} {old new : β}
    {v : Option α} (h : writeColumn check old v = .ok new) :
    (v = none ∧ new = old) ∨ ∃ x, v = some x ∧ check x = .ok new := by
  cases v with
  | none => exact Or.inl ⟨rfl, by simpa [writeColumn] using h.symm⟩
  | some x => exact Or.inr ⟨x, rfl, h⟩

/-- The columns of a row written by a payload. -/
theorem applyData_columns {env : Env} {old new : Book} {d : BookData}
    (h : applyData env old d = .ok new) :
    writeColumn (stringColumn env) old.title d.title = .ok new.title ∧
      writeColumn (stringColumn env) old.author d.author = .ok new.author ∧
      writeColumn (stringColumn env) old.category d.category = .ok new.category ∧
      writeColumn (floatColumn env) old.price d.price = .ok new.price ∧
      writeColumn (floatColumn env) old.rating d.rating = .ok new.rating ∧
      writeColumn (dateColumn env) old.publishedDate d.publishedDate =
        .ok new.publishedDate := by
  unfold applyData at h
  split at h
  · rename_i t a c p r day ht ha hc hp hr hday
    simp only [Except.ok.injEq] at h
    subst h
    exact ⟨ht, ha, hc, hp, hr, hday⟩
  · cases h

/-- A string column stores the string it is given, which the database
accepts. -/
theorem stringColumn_ok {env : Env} {v : JsVal} {s : String}
    (h : stringColumn env v = .ok s) : v = .str s ∧ env.acceptsText s = true := by
  cases v with
  | str x =>
      by_cases hx : env.acceptsText x = true
      · simp only [stringColumn, hx, if_true, Except.ok.injEq] at h
        subst h
        exact ⟨rfl, hx⟩
      · simp [stringColumn, hx] at h
  | undefined => simp [stringColumn] at h
  | null => simp [stringColumn] at h
  | bool x => simp [stringColumn] at h
  | num x => simp [stringColumn] at h

/-- A float column stores the finite number it is given, which the database
accepts. -/
theorem floatColumn_ok {env : Env} {x : JsNum} {q : ℚ} (h : floatColumn env x = .ok q) :
    x = .fin q ∧ env.acceptsFloat q = true := by
  cases x with
  | fin y =>
      by_cases hy : env.acceptsFloat y = true
      · simp only [floatColumn, hy, if_true, Except.ok.injEq] at h
        subst h
        exact ⟨rfl, hy⟩
      · simp [floatColumn, hy] at h
  | nan => simp [floatColumn] at h
  | posInf => simp [floatColumn] at h
  | negInf => simp [floatColumn] at h

/-- A date column stores the valid date it is given, which the database
accepts. -/
theorem dateColumn_ok {env : Env} {x : Option Int} {t : Int}
    (h : dateColumn env x = .ok t) : x = some t ∧ env.acceptsDate t = true := by
  cases x with
  | some y =>
      by_cases hy : env.acceptsDate y = true
      · simp only [dateColumn, hy, if_true, Except.ok.injEq] at h
        subst h
        exact ⟨rfl, hy⟩
      · simp [dateColumn, hy] at h
  | none => simp [dateColumn] at h

/-- The response of an update of a stored book, in terms of the row written. -/
theorem updateBook_response (env : Env) (body : BookBody) {id : String} {db : Db}
    {old : Book} (hfind : db.books.find? (fun b => decide (b.id = id)) = some old) :
    (updateBook env id body db).1 =
      match applyData env old (updateData env body) with
      | .ok new => ⟨200, .book new⟩
      | .error _ => serverError := by
  cases hdata : applyData env old (updateData env body) <;>
    simp [updateBook, bookFindUnique, bookUpdate, hfind, hdata]

/-- C13 (as amended).  For an update request on a stored book: title, author,
category and publishedDate are in the update payload exactly when their value
in the body is truthy (so not when it is the empty string), price and rating
exactly when they are present; the update succeeds when every value in the
payload is one its column accepts; and in the updated record a field in the
payload has the supplied value (price and rating parsed to numbers,
publishedDate parsed to a date) while a field outside it keeps its old value. -/
theorem update_writes_truthy_fields (env : Env) (id : String) (body : BookBody) (db : Db)
    (old : Book) (hOld : old ∈ db.books) (hId : old.id = id)
    (hUnique : (db.books.map Book.id).Nodup) :
    ((updateData env body).title = (if body.title.truthy then some body.title else none) ∧
      (updateData env body).author =
        (if body.author.truthy then some body.author else none) ∧
      (updateData env body).category =
        (if body.category.truthy then some body.category else none) ∧
      (updateData env body).price =
        (if body.price = .undefined then none else some (parseFloat body.price)) ∧
      (updateData env body).rating =
        (if body.rating = .undefined then none else some (parseFloat body.rating)) ∧
      (updateData env body).publishedDate =
        (if body.publishedDate.truthy then some (env.parseDate body.publishedDate)
          else none)) ∧
    ((body.title.truthy = true →
        ∃ t, body.title = .str t ∧ env.acceptsText t = true) →
      (body.author.truthy = true →
        ∃ a, body.author = .str a ∧ env.acceptsText a = true) →
      (body.category.truthy = true →
        ∃ c, body.category = .str c ∧ env.acceptsText c = true) →
      (body.price ≠ .undefined →
        ∃ p, parseFloat body.price = .fin p ∧ env.acceptsFloat p = true) →
      (body.rating ≠ .undefined →
        ∃ r, parseFloat body.rating = .fin r ∧ env.acceptsFloat r = true) →
      (body.publishedDate.truthy = true →
        ∃ day, env.parseDate body.publishedDate = some day ∧
          env.acceptsDate day = true) →
      ∃ new, (updateBook env id body db).1 = ⟨200, .book new⟩) ∧
    (∀ new, (updateBook env id body db).1 = ⟨200, .book new⟩ →
      (if body.title.truthy then body.title = .str new.title
        else new.title = old.title) ∧
      (if body.author.truthy then body.author = .str new.author
        else new.author = old.author) ∧
      (if body.category.truthy then body.category = .str new.category
        else new.category = old.category) ∧
      (if body.price = .undefined then new.price = old.price
        else parseFloat body.price = .fin new.price) ∧
      (if body.rating = .undefined then new.rating = old.rating
        else parseFloat body.rating = .fin new.rating) ∧
      (if body.publishedDate.truthy then
          env.parseDate body.publishedDate = some new.publishedDate
        else new.publishedDate = old.publishedDate)) := by
  have hfind : db.books.find? (fun b => decide (b.id = id)) = some old := by
    rw [← hId]
    exact find_id_some hOld hUnique
  have hresponse := updateBook_response env body hfind
  refine ⟨⟨rfl, rfl, rfl, rfl, rfl, rfl⟩, ?_, ?_⟩
  · intro ht ha hc hp hr hday
    have et : ∃ y, writeColumn (stringColumn env) old.title (updateData env body).title
        = .ok y := by
      apply writeColumn_ok
      intro x hx
      by_cases h : body.title.truthy = true
      · obtain ⟨v, e, hv⟩ := ht h
        simp [updateData, whenTruthy, h] at hx
        exact ⟨v, by rw [← hx, e]; simp [stringColumn, hv]⟩
      · simp [updateData, whenTruthy, h] at hx
    have ea : ∃ y, writeColumn (stringColumn env) old.author (updateData env body).author
        = .ok y := by
      apply writeColumn_ok
      intro x hx
      by_cases h : body.author.truthy = true
      · obtain ⟨v, e, hv⟩ := ha h
        simp [updateData, whenTruthy, h] at hx
        exact ⟨v, by rw [← hx, e]; simp [stringColumn, hv]⟩
      · simp [updateData, whenTruthy, h] at hx
    have ec : ∃ y, writeColumn (stringColumn env) old.category (updateData env body).category
        = .ok y := by
      apply writeColumn_ok
      intro x hx
      by_cases h : body.category.truthy = true
      · obtain ⟨v, e, hv⟩ := hc h
        simp [updateData, whenTruthy, h] at hx
        exact ⟨v, by rw [← hx, e]; simp [stringColumn, hv]⟩
      · simp [updateData, whenTruthy, h] at hx
    have ep : ∃ y, writeColumn (floatColumn env) old.price (updateData env body).price
        = .ok y := by
      apply writeColumn_ok
      intro x hx
      by_cases h : body.price = .undefined
      · simp [updateData, whenDefined, h] at hx
      · obtain ⟨v, e, hv⟩ := hp h
        simp [updateData, whenDefined, h] at hx
        exact ⟨v, by rw [← hx, e]; simp [floatColumn, hv]⟩
    have er : ∃ y, writeColumn (floatColumn env) old.rating (updateData env body).rating
        = .ok y := by
      apply writeColumn_ok
      intro x hx
      by_cases h : body.rating = .undefined
      · simp [updateData, whenDefined, h] at hx
      · obtain ⟨v, e, hv⟩ := hr h
        simp [updateData, whenDefined, h] at hx
        exact ⟨v, by rw [← hx, e]; simp [floatColumn, hv]⟩
    have ed : ∃ y, writeColumn (dateColumn env) old.publishedDate (updateData env body).publishedDate
        = .ok y := by
      apply writeColumn_ok
      intro x hx
      by_cases h : body.publishedDate.truthy = true
      · obtain ⟨v, e, hv⟩ := hday h
        simp [updateData, whenTruthy, h] at hx
        exact ⟨v, by rw [← hx, e]; simp [dateColumn, hv]⟩
      · simp [updateData, whenTruthy, h] at hx
    obtain ⟨t, et⟩ := et
    obtain ⟨a, ea⟩ := ea
    obtain ⟨c, ec⟩ := ec
    obtain ⟨p, ep⟩ := ep
    obtain ⟨r, er⟩ := er
    obtain ⟨day, ed⟩ := ed
    refine ⟨⟨old.id, t, a, c, p, r, day, old.userId⟩, ?_⟩
    rw [hresponse]
    simp [applyData, et, ea, ec, ep, er, ed]
  · intro new hUpdated
    rw [hresponse] at hUpdated
    cases hdata : applyData env old (updateData env body) with
    | error e => rw [hdata] at hUpdated; simp [serverError] at hUpdated
    | ok written =>
        rw [hdata] at hUpdated
        simp only [Response.mk.injEq, Body.book.injEq, true_and] at hUpdated
        subst hUpdated
        obtain ⟨ct, ca, cc, cp, cr, cd⟩ := applyData_columns hdata
        refine ⟨?_, ?_, ?_, ?_, ?_, ?_⟩
        · by_cases h : body.title.truthy = true
          · simp only [updateData, whenTruthy, h, if_true, writeColumn] at ct
            simpa [h] using (stringColumn_ok ct).1
          · simp only [updateData, whenTruthy, h, writeColumn] at ct
            simpa [h] using ct.symm
        · by_cases h : body.author.truthy = true
          · simp only [updateData, whenTruthy, h, if_true, writeColumn] at ca
            simpa [h] using (stringColumn_ok ca).1
          · simp only [updateData, whenTruthy, h, writeColumn] at ca
            simpa [h] using ca.symm
        · by_cases h : body.category.truthy = true
          · simp only [updateData, whenTruthy, h, if_true, writeColumn] at cc
            simpa [h] using (stringColumn_ok cc).1
          · simp only [updateData, whenTruthy, h, writeColumn] at cc
            simpa [h] using cc.symm
        · by_cases h : body.price = .undefined
          · simp only [updateData, whenDefined, h, if_true, writeColumn] at cp
            simpa [h] using cp.symm
          · simp only [updateData, whenDefined, h, if_false, writeColumn] at cp
            simpa [h] using (floatColumn_ok cp).1
        · by_cases h : body.rating = .undefined
          · simp only [updateData, whenDefined, h, if_true, writeColumn] at cr
            simpa [h] using cr.symm
          · simp only [updateData, whenDefined, h, if_false, writeColumn] at cr
            simpa [h] using (floatColumn_ok cr).1
        · by_cases h : body.publishedDate.truthy = true
          · simp only [updateData, whenTruthy, h, if_true, writeColumn] at cd
            simpa [h] using (dateColumn_ok cd).1
          · simp only [updateData, whenTruthy, h, writeColumn] at cd
            simpa [h] using cd.symm

/-- C13, the claim as stated fails: an update whose title is the empty string
puts no title in the payload and answers 200 with the title unchanged. -/
theorem update_empty_title_ignored :
    (updateData sampleEnv
        ⟨.str "", .undefined, .undefined, .undefined, .undefined, .undefined⟩).title = none ∧
      updateBook sampleEnv "b1"
          ⟨.str "", .undefined, .undefined, .undefined, .undefined, .undefined⟩ sampleDb =
        (⟨200, .book duneRow⟩, sampleDb) ∧
      duneRow.title = "Dune" := by
  decide!

/-- C13, an instance: an update with a new title and the price `375` as text
writes both and keeps the author. -/
theorem update_writes_truthy_fields_witness :
    (duneRow ∈ sampleDb.books ∧ duneRow.id = "b1" ∧ (sampleDb.books.map Book.id).Nodup) ∧
    ∃ new : Book,
      (updateBook sampleEnv "b1"
          ⟨.str "Dune Messiah", .undefined, .undefined, .str "375", .undefined, .undefined⟩
          sampleDb).1 = ⟨200, .book new⟩ ∧
        JsVal.str "Dune Messiah" = .str new.title ∧
        parseFloat (.str "375") = .fin new.price ∧
        new.author = duneRow.author := by
  have hOld : duneRow ∈ sampleDb.books := List.mem_cons_self _ _
  have hUnique : (sampleDb.books.map Book.id).Nodup := by decide
  have key := update_writes_truthy_fields sampleEnv "b1"
    ⟨.str "Dune Messiah", .undefined, .undefined, .str "375", .undefined, .undefined⟩
    sampleDb duneRow hOld rfl hUnique
  obtain ⟨new, hnew⟩ := key.2.1 (fun _ => ⟨"Dune Messiah", rfl, by decide⟩)
    (fun h => absurd h (by decide)) (fun h => absurd h (by decide))
    (fun _ => ⟨375, by decide!, by decide!⟩) (fun h => absurd rfl h)
    (fun h => absurd h (by decide))
  obtain ⟨ht, ha, -, hp, -, -⟩ := key.2.2 new hnew
  rw [if_pos (by decide)] at ht
  rw [if_neg (by decide)] at ha hp
  exact ⟨⟨hOld, rfl, hUnique⟩, new, hnew, ht, hp, ha⟩

/-! ## Signup followed by login -/

/-- Login never writes. -/
theorem login_db (env : Env) (now : Nat) (body : AuthBody) (db : Db) :
    (login env now body db).2 = db := by
  unfold login
  split
  · rfl
  · split
    · rfl
    · rfl
    · split <;> rfl

/-- C14.  When a signup with a non-empty email and password is answered with
201, and `compare` accepts the password against the digest stored for it, a
login with the same email and password on the resulting store answers 200 with
the identifier and email that the signup returned and a token issued for that
identifier; and a login, whatever its input, leaves the store as it was. -/
theorem signup_then_login (env : Env) (salt newId : String) (now now2 : Nat) (db : Db)
    (email password : String) (hEmail : email ≠ "") (hPassword : password ≠ "")
    (hSignup : (signup env salt newId now ⟨.str email, .str password⟩ db).1.status = 201)
    (hCompare : env.compare password (env.hash password salt) = true) :
    (signup env salt newId now ⟨.str email, .str password⟩ db).1 =
        ⟨201, .credentials newId email (env.sign newId now)⟩ ∧
      login env now2 ⟨.str email, .str password⟩
          (signup env salt newId now ⟨.str email, .str password⟩ db).2 =
        (⟨200, .credentials newId email (env.sign newId now2)⟩,
          (signup env salt newId now ⟨.str email, .str password⟩ db).2) ∧
      ∀ (now3 : Nat) (body3 : AuthBody) (db3 : Db), (login env now3 body3 db3).2 = db3 := by
  have hfind : db.users.find? (fun u => decide (u.email = email)) = none := by
    cases hf : db.users.find? (fun u => decide (u.email = email)) with
    | none => rfl
    | some u => simp [signup, userFindUnique, hEmail, hPassword, hf] at hSignup
  have hany : db.users.any (fun u => decide (u.email = email) || decide (u.id = newId))
      = false := by
    cases ha : db.users.any (fun u => decide (u.email = email) || decide (u.id = newId)) with
    | false => rfl
    | true =>
        simp only [signup, userFindUnique, bcryptHash, userCreate, hfind, ha] at hSignup
        simp [hEmail, hPassword, serverError] at hSignup
  have hresult : signup env salt newId now ⟨.str email, .str password⟩ db =
      (⟨201, .credentials newId email (env.sign newId now)⟩,
        ⟨db.users ++ [⟨newId, email, env.hash password salt⟩], db.books⟩) := by
    simp [signup, userFindUnique, bcryptHash, userCreate, hEmail, hPassword, hfind, hany]
  have hfound : (db.users ++ [(⟨newId, email, env.hash password salt⟩ : User)]).find?
      (fun u => decide (u.email = email)) = some ⟨newId, email, env.hash password salt⟩ := by
    rw [List.find?_append, hfind]
    simp
  refine ⟨by rw [hresult], ?_, login_db env⟩
  rw [hresult]
  simp [login, userFindUnique, bcryptCompare, hEmail, hPassword, hfound, hCompare]

/-- C14, an instance: a user signs up into the empty store and logs in. -/
theorem signup_then_login_witness :
    ("ann@example.com" ≠ "" ∧ "secret" ≠ "" ∧
      (signup sampleEnv "salt" "u1" 0 ⟨.str "ann@example.com", .str "secret"⟩
        emptyDb).1.status = 201 ∧
      sampleEnv.compare "secret" (sampleEnv.hash "secret" "salt") = true) ∧
    login sampleEnv 5 ⟨.str "ann@example.com", .str "secret"⟩
        (signup sampleEnv "salt" "u1" 0 ⟨.str "ann@example.com", .str "secret"⟩ emptyDb).2 =
      (⟨200, .credentials "u1" "ann@example.com" (sampleEnv.sign "u1" 5)⟩,
        (signup sampleEnv "salt" "u1" 0 ⟨.str "ann@example.com", .str "secret"⟩ emptyDb).2) :=
  ⟨by decide,
    (signup_then_login sampleEnv "salt" "u1" 0 5 emptyDb "ann@example.com" "secret"
      (by decide) (by decide) (by decide) (by decide)).2.1⟩

end BookStore
